import Mathlib

/-!
Verification of the gha-tui core against its specification.

This file shallowly embeds the parts of the program the claims are about:

* the multi-attempt log merge of `fetchLogs` (internal/tui/app.go),
* the cached-log lookup `findJobLog` (internal/tui/app.go),
* the disk log cache `HasRun` / `Evict` (internal/cache/logs.go),
* the bulk delete aggregation `deleteIDsConcurrently` (internal/tui/app.go),
* the session controller `Update` state machine (internal/tui/app.go),
  together with the sub-view models it routes events to.

Go `map[string]string` values are modelled as association lists with
distinct keys; Go strings are modelled as Lean strings (sequences of
characters).  Wall-clock instants, durations and sizes are `Int`
(Go `time.Time` / `time.Duration` / `int64`).
-/

set_option autoImplicit false

/-! ## Association-list model of Go `map[string]string` -/

abbrev LogMap := List (String × String)

/-- Go map indexing `m[k]`: the value stored at key `k`. -/
def lookupM : LogMap → String → Option String
  | [], _ => none
  | kv :: rest, k => if kv.1 = k then some kv.2 else lookupM rest k

/-- Go map assignment `m[k] = v`: update the slot for `k`, or add it. -/
def mapSet : LogMap → String → String → LogMap
  | [], k, v => [(k, v)]
  | kv :: rest, k, v => if kv.1 = k then (k, v) :: rest else kv :: mapSet rest k v

/-- The keys of a map have no duplicates (always true of a Go map). -/
def KeysNodup (m : LogMap) : Prop := (m.map Prod.fst).Nodup

instance (m : LogMap) : Decidable (KeysNodup m) := by
  unfold KeysNodup; infer_instance

/-! ## Multi-attempt log merge (`fetchLogs`, internal/tui/app.go:305-408)

`fetchLogs` spawns one fetch per attempt `1..attempt`, writing each
outcome into slot `att-1` of a pre-allocated `results` array, then folds
the slots in index (= ascending attempt) order.  We model the filled
`results` array directly: slot `i` of the list holds the outcome of
attempt `i+1`, and the final attempt is the last slot. -/

/-- Outcome of one per-attempt fetch task: a job-name→content map, or an
error (errors are abstract tokens; only identity matters). -/
inductive FetchOutcome where
  | ok (logs : LogMap)
  | fail (e : Nat)
deriving DecidableEq, Repr

/-- One step of the merge loop body for a single key
(`if existing, ok := merged[k]; !ok || len(v) > len(existing) { merged[k] = v }`). -/
def mergeEntry (m : LogMap) (k v : String) : LogMap :=
  match lookupM m k with
  | none => mapSet m k v
  | some existing => if v.length > existing.length then mapSet m k v else m

/-- Merge one successful attempt's map into the accumulator
(`for k, v := range r.logs { ... }`). -/
def mergeAttemptLogs (m : LogMap) (logs : LogMap) : LogMap :=
  logs.foldl (fun acc kv => mergeEntry acc kv.1 kv.2) m

/-- One slot of the merge loop: merge a successful slot's map into the
accumulator, skip a failed slot. -/
def slotStep (acc : LogMap) (r : FetchOutcome) : LogMap :=
  match r with
  | .ok logs => mergeAttemptLogs acc logs
  | .fail _ => acc

/-- The whole merge loop over the result slots, in ascending attempt order;
failed slots contribute nothing (`if r.err != nil { ... continue }`). -/
def mergeSlots (results : List FetchOutcome) : LogMap :=
  results.foldl slotStep []

/-- `lastErr`: only a failure of the final attempt is recorded
(`if r.att == attempt { lastErr = r.err }`). -/
def finalAttemptErr (results : List FetchOutcome) : Option Nat :=
  match results.getLast? with
  | some (.fail e) => some e
  | _ => none

/-- Error reported by `fetchLogs`: a recorded API error, or the generic
`"no logs available"` error. -/
inductive MergeError where
  | api (e : Nat)
  | noLogs
deriving DecidableEq, Repr

/-- The result of `fetchLogs` after all attempt tasks completed:
merge the slots; if the merged map is empty report the recorded
final-attempt error (or the generic error), otherwise the merged map. -/
def fetchLogsMerge (results : List FetchOutcome) : Except MergeError LogMap :=
  let merged := mergeSlots results
  if merged.isEmpty then
    .error (match finalAttemptErr results with
            | some e => .api e
            | none => .noLogs)
  else
    .ok merged

/-- Specification-side description of the per-key merge policy: fold the
attempt values for one key, a later value replacing the accumulated one
exactly when strictly longer. -/
def longerWins (acc : Option String) (v : String) : Option String :=
  match acc with
  | none => some v
  | some a => if v.length > a.length then some v else some a

/-- Per-key view of one slot: apply `longerWins` when the slot succeeded
and carries the key, otherwise leave the accumulator unchanged. -/
def oneKeyStep (k : String) (acc : Option String) (r : FetchOutcome) : Option String :=
  match r with
  | .ok logs =>
      match lookupM logs k with
      | some v => longerWins acc v
      | none => acc
  | .fail _ => acc

/-- Specification-side merged value for a single key: fold `oneKeyStep`
over the slots in ascending attempt order, starting from nothing. -/
def mergedValueSpec (results : List FetchOutcome) (k : String) : Option String :=
  results.foldl (oneKeyStep k) none

/-- A 40-character job log (the spec's attempt-1 content for job `build`). -/
def contentA : String := "AAAAAAAAAAAAAAAAAAAAAAAAAAAAAAAAAAAAAAAA"

/-- An 18-character stub log (the spec's attempt-2 content for job `build`). -/
def contentStub : String := "SSSSSSSSSSSSSSSSSS"

/-! ## Cached-log lookup (`findJobLog`, internal/tui/app.go:2020-2031) -/

/-- `strings.HasPrefix`-style check on character lists. -/
def startsWithL : List Char → List Char → Bool
  | _, [] => true
  | [], _ :: _ => false
  | c :: s, d :: t => c = d && startsWithL s t

/-- `strings.Contains sub s`: `sub` occurs as a contiguous substring of `s`. -/
def containsSub : List Char → List Char → Bool
  | s, sub =>
    startsWithL s sub ||
      match s with
      | [] => false
      | _ :: rest => containsSub rest sub

/-- Go `strings.Contains(s, sub)` on the string model. -/
def goContains (s sub : String) : Bool := containsSub s.data sub.data

/-- `findJobLog`: exact map lookup first, then the first entry whose key
contains the queried name or is contained in it. -/
def findJobLog (logs : LogMap) (name : String) : Option String :=
  match lookupM logs name with
  | some content => some content
  | none =>
      (logs.find? (fun kv => goContains kv.1 name || goContains name kv.1)).map Prod.snd

/-! ## Log cache (`HasRun` / `Evict`, internal/cache/logs.go) -/

/-- One file met by `Evict`'s directory walk (directories are skipped by
the walk callback). -/
structure FileEntry where
  path : String
  modTime : Int
  size : Int
deriving DecidableEq, Repr

/-- Total size of a collection of files, as tracked by `totalSize`. -/
def sumSizes (l : List FileEntry) : Int := (l.map FileEntry.size).sum

/-- The files surviving `Evict`'s first sweep
(`if now.Sub(e.modTime) > lc.ttl { os.Remove(e.path) }`). -/
def ttlRemaining (now ttl : Int) (entries : List FileEntry) : List FileEntry :=
  entries.filter (fun e => !(now - e.modTime > ttl))

/-- The second sweep's loop over the modification-time-sorted entries:
delete from the front while the tracked total still exceeds the cap.
Returns the surviving suffix and the final tracked total. -/
def sizeSweep (maxSize : Int) : List FileEntry → Int → List FileEntry × Int
  | [], total => ([], total)
  | e :: rest, total =>
      if total ≤ maxSize then (e :: rest, total)
      else sizeSweep maxSize rest (total - e.size)

/-- The comparator of `Evict`'s `sort.Slice` call, ordering by
modification time (oldest first). -/
def byModTime (a b : FileEntry) : Bool := decide (a.modTime ≤ b.modTime)

/-- `Evict`: one walk collects entries and the total size; sweep 1 deletes
expired files; sweep 2 deletes oldest-modified-first while over the size
cap.  Returns the surviving files and the final tracked total size. -/
def evict (now ttl maxSize : Int) (entries : List FileEntry) : List FileEntry × Int :=
  let kept := ttlRemaining now ttl entries
  let total := sumSizes kept
  if total > maxSize then sizeSweep maxSize (kept.mergeSort byModTime) total
  else (kept, total)

/-- One `run-<id>-attempt-<n>` cache directory as seen by `os.Stat`. -/
structure DirEntry where
  runID : Int
  attempt : Int
  modTime : Int
deriving DecidableEq, Repr

/-- `HasRun`: the entry's directory exists and
`time.Since(info.ModTime()) < lc.ttl`. -/
def hasRun (dirs : List DirEntry) (now ttl : Int) (runID attempt : Int) : Bool :=
  match dirs.find? (fun d => d.runID == runID && d.attempt == attempt) with
  | none => false
  | some d => decide (now - d.modTime < ttl)

/-! ## Bulk delete aggregation (`deleteIDsConcurrently`, internal/tui/app.go:765-798)

Per-target outcomes are a function from the ID to `none` (success) or
`some e` (failure).  The goroutines update `deleted` and `lastErr` under
one mutex; we model one serialization (list order) of those updates —
the success count and whether `lastErr` is set are the same for every
serialization. -/

/-- The aggregated result reported by the bulk delete: the success
counter, the total target count and the last recorded error, as encoded
into the final `ActionResultMsg`. -/
structure BulkReport where
  succeededCount : Nat
  totalCount : Nat
  lastError : Option Nat
deriving DecidableEq, Repr

/-- `deleteIDsConcurrently`: attempt every target once, count successes,
keep the most recent error; never abort early. -/
def deleteIDsConcurrently (ids : List Int) (outcome : Int → Option Nat) : BulkReport :=
  let fold := ids.foldl
    (fun (acc : Nat × Option Nat) id =>
      match outcome id with
      | some e => (acc.1, some e)
      | none => (acc.1 + 1, acc.2))
    (0, none)
  { succeededCount := fold.1, totalCount := ids.length, lastError := fold.2 }

/-! ## Session controller (`App.Update`, internal/tui/app.go:834-1811)

The controller state is the subset of the `App` struct the claims are
about, together with shallow models of the sub-views it routes events
to.  Sub-view internals that only affect rendering (viewports, style,
exact list filtering text) are abstracted; their control-flow-relevant
fields (active/mode flags, cursors, items) are transcribed from their
sources.  The modelled event alphabet is the message kinds the claims
concern: key input, run-list results, job-list results, job-tail status
results and log-tail ticks. -/

inductive View where
  | runs | workflows | metrics | cacheTab | runners
deriving DecidableEq, Repr

inductive Pane where
  | left | middle | right
deriving DecidableEq, Repr

inductive RunStatus where
  | completed | inProgress | queued
deriving DecidableEq, Repr

structure Run where
  id : Int
  runNumber : Nat
  runAttempt : Nat
  status : RunStatus
deriving DecidableEq, Repr

structure Job where
  id : Int
  name : String
  status : RunStatus
deriving DecidableEq, Repr

/-- The runs list view (internal/tui/runs): the loaded runs, the list
cursor, the multi-select set and the bubbles list's filter state
(`filtering` = typing a filter, `filterApplied` = a filter is applied). -/
structure RunsView where
  items : List Run
  cursor : Nat
  selected : List Int
  filtering : Bool
  filterApplied : Bool
deriving DecidableEq, Repr

def RunsView.new : RunsView :=
  { items := [], cursor := 0, selected := [], filtering := false, filterApplied := false }

/-- `SelectedRun`: the list item under the cursor. -/
def RunsView.selectedRun (m : RunsView) : Option Run := m.items.get? m.cursor

/-- `RunByID`. -/
def RunsView.runByID (m : RunsView) (id : Int) : Option Run :=
  m.items.find? (fun r => r.id == id)

/-- `HasActiveFilter`: the list filter state is not `Unfiltered`. -/
def RunsView.hasActiveFilter (m : RunsView) : Bool := m.filtering || m.filterApplied

/-- The jobs pane (internal/tui/details).  The Go view sorts jobs by name
and groups matrix/reusable variants; selection is by cursor into the
flattened order.  We keep the job list and cursor; the grouping is a
display refinement that preserves the set of selectable jobs. -/
structure DetailsView where
  run : Option Run
  jobs : List Job
  cursor : Nat
  attempt : Nat
  maxAttempt : Nat
deriving DecidableEq, Repr

def DetailsView.new : DetailsView :=
  { run := none, jobs := [], cursor := 0, attempt := 0, maxAttempt := 0 }

/-- `SetRun` (details/view.go): store the run, reset the cursor. -/
def DetailsView.setRun (m : DetailsView) (r : Run) : DetailsView :=
  { m with run := some r, cursor := 0 }

/-- Modelled from the spec: `SetAttempt` (called from app.go:1311,1328) is
absent from the sources; per §4.1 it records the attempt cursor the pane
should display. -/
def DetailsView.setAttempt (m : DetailsView) (attempt maxAttempt : Nat) : DetailsView :=
  { m with attempt := attempt, maxAttempt := maxAttempt }

/-- `SelectedJob`: the job under the cursor. -/
def DetailsView.selectedJob (m : DetailsView) : Option Job := m.jobs.get? m.cursor

/-- Key handling of the jobs pane (details/view.go `Update`): j/down and
k/up move the cursor. -/
def DetailsView.updateKey (m : DetailsView) (k : String) : DetailsView :=
  if k = "j" || k = "down" then
    if m.cursor + 1 < m.jobs.length then { m with cursor := m.cursor + 1 } else m
  else if k = "k" || k = "up" then
    if m.cursor > 0 then { m with cursor := m.cursor - 1 } else m
  else m

/-- `JobsLoadedMsg` handling of the jobs pane: store the jobs sorted by
name, reset the cursor (errors leave the previous jobs in place). -/
def DetailsView.onJobsLoaded (m : DetailsView) (jobs : List Job) (err : Option Nat) : DetailsView :=
  match err with
  | some _ => m
  | none =>
      { m with jobs := jobs.mergeSort (fun a b => a.name ≤ b.name), cursor := 0 }

/-- The full-screen log view (logview): content identity, the pending
jump line, and the tailing / in-log-search flags. -/
structure LogView where
  jobName : String
  content : String
  line : Nat
  loading : Bool
  tailing : Bool
  searching : Bool
  searchQuery : String
deriving DecidableEq, Repr

def LogView.new : LogView :=
  { jobName := "", content := "", line := 0, loading := false, tailing := false,
    searching := false, searchQuery := "" }

def LogView.setContent (m : LogView) (name content : String) : LogView :=
  { m with jobName := name, content := content, loading := false, line := 0 }

def LogView.updateContent (m : LogView) (content : String) : LogView :=
  { m with content := content }

def LogView.setLoading (m : LogView) : LogView := { m with loading := true }

def LogView.gotoLine (m : LogView) (n : Nat) : LogView := { m with line := n }

def LogView.setTailing (m : LogView) (b : Bool) : LogView := { m with tailing := b }

/-- Key handling of the log view (logview `Update`): in search mode,
enter/esc leave search mode and other keys type into the search input;
otherwise `/` enters search mode (n/N/g/G only move the viewport). -/
def LogView.updateKey (m : LogView) (k : String) : LogView :=
  if m.searching then
    if k = "enter" || k = "esc" then { m with searching := false }
    else { m with searchQuery := m.searchQuery ++ k }
  else if k = "/" then { m with searching := true, searchQuery := "" }
  else m

/-- The search overlay (searchview): active flag, input-vs-results mode,
the query, and the result rows as (job name, line) pairs. -/
structure SearchView where
  active : Bool
  inputMode : Bool
  query : String
  results : List (String × Nat)
  cursor : Nat
  loading : Bool
deriving DecidableEq, Repr

def SearchView.new : SearchView :=
  { active := false, inputMode := true, query := "", results := [], cursor := 0,
    loading := false }

/-- `SelectedMatch`. -/
def SearchView.selectedMatch (m : SearchView) : Option (String × Nat) :=
  m.results.get? m.cursor

/-- Key handling of the search overlay (searchview `Update`): in input
mode enter marks loading, esc deactivates, anything else types into the
query; in results mode j/k move the cursor, `/` returns to input mode
and esc deactivates. -/
def SearchView.updateKey (m : SearchView) (k : String) : SearchView :=
  if m.inputMode then
    if k = "enter" then (if m.query ≠ "" then { m with loading := true } else m)
    else if k = "esc" then { m with active := false }
    else { m with query := m.query ++ k }
  else
    if k = "j" || k = "down" then
      if m.cursor + 1 < m.results.length then { m with cursor := m.cursor + 1 } else m
    else if k = "k" || k = "up" then
      if m.cursor > 0 then { m with cursor := m.cursor - 1 } else m
    else if k = "/" then { m with inputMode := true }
    else if k = "esc" then { m with active := false }
    else m

/-- The info overlay's run/job identity (infoview); its `Update` only
resizes a viewport, so key handling is the identity. -/
structure InfoView where
  run : Option Run
  job : Option Job
  jobs : List Job
  showingJob : Bool
deriving DecidableEq, Repr

def InfoView.new : InfoView :=
  { run := none, job := none, jobs := [], showingJob := false }

def InfoView.setRun (m : InfoView) (r : Run) : InfoView :=
  { m with run := some r, showingJob := false }

def InfoView.setJob (m : InfoView) (j : Job) : InfoView :=
  { m with job := some j, showingJob := true }

def InfoView.setJobs (m : InfoView) (jobs : List Job) : InfoView :=
  { m with jobs := jobs }

/-- The server-side filter form overlay (filteroverlay): active flag,
focused field (0=workflow 1=event 2=status 3=branch 4=actor), whether a
text input is focused, and the option cursors.  Text input contents are
abstracted (they never affect control flow). -/
structure FilterOverlay where
  active : Bool
  focused : Nat
  branchFocused : Bool
  actorFocused : Bool
  workflowIdx : Int
  eventIdx : Int
  statusIdx : Int
deriving DecidableEq, Repr

def FilterOverlay.inactive : FilterOverlay :=
  { active := false, focused := 0, branchFocused := false, actorFocused := false,
    workflowIdx := -1, eventIdx := -1, statusIdx := -1 }

/-- `filteroverlay.New`: starts active with no selections. -/
def FilterOverlay.new : FilterOverlay :=
  { FilterOverlay.inactive with active := true }

/-- `moveFocus`: clamp-wrap over the five fields. -/
def FilterOverlay.moveFocusFwd (m : FilterOverlay) : FilterOverlay :=
  { m with focused := if m.focused + 1 ≥ 5 then 0 else m.focused + 1 }

def FilterOverlay.moveFocusBwd (m : FilterOverlay) : FilterOverlay :=
  { m with focused := if m.focused = 0 then 4 else m.focused - 1 }

/-- `isTextFieldFocused`. -/
def FilterOverlay.textFocused (m : FilterOverlay) : Bool :=
  m.branchFocused || m.actorFocused

def FilterOverlay.blurText (m : FilterOverlay) : FilterOverlay :=
  { m with branchFocused := false, actorFocused := false }

def FilterOverlay.focusCurrentText (m : FilterOverlay) : FilterOverlay :=
  if m.focused = 3 then { m with branchFocused := true }
  else if m.focused = 4 then { m with actorFocused := true }
  else m

/-- Key handling of the filter overlay (filteroverlay `Update`).
Option-index cycling updates are modelled as leaving the index values
in range (their exact arithmetic never affects the controller). -/
def FilterOverlay.updateKey (m : FilterOverlay) (k : String) : FilterOverlay :=
  if m.textFocused then
    if k = "esc" then { m with active := false }
    else if k = "up" || k = "k" then (m.blurText).moveFocusBwd
    else if k = "down" || k = "j" then (m.blurText).moveFocusFwd
    else if k = "tab" then ((m.blurText).moveFocusFwd).focusCurrentText
    else if k = "shift+tab" then ((m.blurText).moveFocusBwd).focusCurrentText
    else m
  else if k = "j" || k = "down" then m.moveFocusFwd
  else if k = "k" || k = "up" then m.moveFocusBwd
  else if k = "enter" || k = "right" || k = "l" then
    if m.focused = 3 then { m with branchFocused := true }
    else if m.focused = 4 then { m with actorFocused := true }
    else m
  else if k = "a" then { m with active := false }
  else if k = "c" then { m with workflowIdx := -1, eventIdx := -1, statusIdx := -1 }
  else if k = "esc" then { m with active := false }
  else m

/-- The confirmation dialog (confirm): active flag, the pending action
tag, the yes/no cursor and the `int64` payload. -/
structure ConfirmDialog where
  active : Bool
  action : String
  selected : Bool
  dataID : Int
deriving DecidableEq, Repr

def ConfirmDialog.inactive : ConfirmDialog :=
  { active := false, action := "", selected := false, dataID := 0 }

/-- `confirm.New`: starts active with "No" selected. -/
def ConfirmDialog.new (action : String) (dataID : Int) : ConfirmDialog :=
  { active := true, action := action, selected := false, dataID := dataID }

/-- Commands emitted by the controller (tea.Cmd values, identified by
which background task they start). -/
inductive Cmd where
  | fetchJobs (runID : Int)
  | fetchJobsForAttempt (runID : Int) (attempt : Nat)
  | fetchLogsMerged (runID : Int)
  | fetchLogsAttempt (runID : Int) (attempt : Nat)
  | fetchJobLog (jobID : Int) (jobName : String)
  | checkJobStatus (jobID : Int) (jobName : String)
  | scheduleLogRefresh (jobID : Int) (jobName : String)
  | scheduleJobsRefresh (runID : Int)
  | scheduleRunsRefresh
  | fetchRuns
  | fetchRunsPage (page : Nat)
  | fetchWorkflows
  | fetchDashboard
  | fetchCaches
  | fetchRunners
  | executeSearch (query : String)
  | confirmResult (confirmed : Bool) (action : String)
  | filterResult (applied : Bool)
  | needNextPage
  | quit
deriving DecidableEq, Repr

/-- The modelled inbound event alphabet. -/
inductive Msg where
  | key (k : String)
  | runsLoaded (runs : List Run) (totalCount : Nat) (err : Option Nat)
  | jobsLoaded (runID : Int) (jobs : List Job) (err : Option Nat)
  | jobTailStatus (jobID : Int) (jobName : String) (job : Option Job)
      (completed : Bool) (err : Option Nat)
  | logTailTick (jobID : Int) (jobName : String)
deriving DecidableEq, Repr

/-- The controller state: the `App` struct fields the claims concern. -/
structure AppState where
  currentView : View
  focusedPane : Pane
  runsView : RunsView
  detailsView : DetailsView
  logView : LogView
  searchView : SearchView
  infoView : InfoView
  filterOverlay : FilterOverlay
  confirmDialog : ConfirmDialog
  showHelp : Bool
  status : String
  runsPage : Nat
  runsTotalCount : Nat
  runsHasMore : Bool
  runsLoading : Bool
  runsFilterSet : Bool
  autoRefreshRunID : Int
  tailingJobID : Int
  tailingJobName : String
  viewingJob : Option Job
  viewingAttempt : Nat
  logFullScreen : Bool
  infoFullScreen : Bool
  infoStartedRefresh : Bool
  cameFromSearch : Bool
  currentRunLogs : LogMap
  currentRunID : Int
deriving DecidableEq, Repr

/-- `NewApp`: the initial state (unset Go fields are zero values). -/
def initApp : AppState :=
  { currentView := .runs
    focusedPane := .left
    runsView := RunsView.new
    detailsView := DetailsView.new
    logView := LogView.new
    searchView := SearchView.new
    infoView := InfoView.new
    filterOverlay := FilterOverlay.inactive
    confirmDialog := ConfirmDialog.inactive
    showHelp := false
    status := "Loading runs..."
    runsPage := 0
    runsTotalCount := 0
    runsHasMore := false
    runsLoading := false
    runsFilterSet := false
    autoRefreshRunID := 0
    tailingJobID := 0
    tailingJobName := ""
    viewingJob := none
    viewingAttempt := 0
    logFullScreen := false
    infoFullScreen := false
    infoStartedRefresh := false
    cameFromSearch := false
    currentRunLogs := []
    currentRunID := 0 }

/-- `isListFiltering` (app.go:1858): whether the active tab's list is in
filter-typing mode.  The workflow/cache/runner lists' filter modes are
not modelled (they never interact with the claims), so only the runs
list contributes. -/
def isListFiltering (s : AppState) : Bool :=
  match s.currentView with
  | .runs => s.runsView.filtering
  | _ => false

/-- Step-progress rendering (`renderStepProgress`); the produced text is
display-only, so it is abstracted to a tagged string. -/
def renderStepProgress (j : Job) : String := "steps " ++ j.name

/-- Failed-step jump line (`firstFailedStepName`/`findFailedStepLine`);
the text scan is display-only and abstracted to "no jump" (0), which is
also the Go behaviour whenever no failed step is found. -/
def failedStepJumpLine (_j : Job) (_content : String) : Nat := 0

/-- `runsPageStatus` (display-only formatting, abstracted). -/
def runsPageStatus : String := "runs page status"

/-- Routing while the confirmation dialog is showing (app.go:885-892 and
confirm/dialog.go `Update`). -/
def confirmRoute (s : AppState) (msg : Msg) : AppState × List Cmd :=
  match msg with
  | .key k =>
      if k = "y" || k = "Y" then
        ({ s with confirmDialog := { s.confirmDialog with active := false } },
         [Cmd.confirmResult true s.confirmDialog.action])
      else if k = "n" || k = "N" || k = "esc" then
        ({ s with confirmDialog := { s.confirmDialog with active := false } },
         [Cmd.confirmResult false s.confirmDialog.action])
      else if k = "enter" then
        ({ s with confirmDialog := { s.confirmDialog with active := false } },
         [Cmd.confirmResult s.confirmDialog.selected s.confirmDialog.action])
      else if k = "tab" || k = "left" || k = "right" || k = "h" || k = "l" then
        ({ s with confirmDialog := { s.confirmDialog with selected := !s.confirmDialog.selected } },
         [])
      else (s, [])
  | _ => (s, [])

/-- Routing while the filter overlay is showing (app.go:907-915). -/
def filterRoute (s : AppState) (msg : Msg) : AppState × List Cmd :=
  match msg with
  | .key k =>
      let fo := s.filterOverlay.updateKey k
      let cmds :=
        if s.filterOverlay.textFocused then
          if k = "esc" then [Cmd.filterResult false] else []
        else if k = "a" then [Cmd.filterResult true]
        else if k = "esc" then [Cmd.filterResult false]
        else []
      ({ s with filterOverlay := fo }, cmds)
  | _ => (s, [])

/-- Routing while the search overlay is showing (app.go:917-963): the
sub-view consumes the key, then the app handles enter (dispatch the
search in input mode; jump to the selected match's log in results mode,
using the same exact-then-partial lookup as `findJobLog`). -/
def searchRoute (s : AppState) (msg : Msg) : AppState × List Cmd :=
  match msg with
  | .key k =>
      let sv := s.searchView.updateKey k
      let base : AppState := { s with searchView := sv }
      if k = "enter" then
        if sv.inputMode then
          if sv.query ≠ "" then
            if s.currentRunLogs.length > 0 then (base, [Cmd.executeSearch sv.query])
            else ({ base with status := "No logs available yet (jobs may still be running)" }, [])
          else (base, [])
        else
          match sv.selectedMatch with
          | none => (base, [])
          | some (jobName, line) =>
              match findJobLog s.currentRunLogs jobName with
              | some content =>
                  ({ base with
                      searchView := { sv with active := false }
                      logView := (base.logView.setContent jobName content).gotoLine line
                      logFullScreen := true
                      cameFromSearch := true }, [])
              | none => (base, [])
      else (base, [])
  | _ => (s, [])

/-- Key handling of the runs list (runs view `Update` plus the bubbles
list's filter behaviour): `f` starts filter typing; while filtering,
enter applies it and esc cancels it, other keys type into the filter;
j/down at the bottom requests the next page; space toggles selection;
esc clears an applied filter. -/
def RunsView.updateKey (m : RunsView) (k : String) : RunsView × List Cmd :=
  if m.filtering then
    if k = "enter" then ({ m with filtering := false, filterApplied := true }, [])
    else if k = "esc" then ({ m with filtering := false }, [])
    else (m, [])
  else if k = "f" then
    (if m.items.length > 0 then { m with filtering := true } else m, [])
  else if k = " " then
    match m.selectedRun with
    | some r =>
        (if m.selected.contains r.id
         then { m with selected := m.selected.filter (fun id => id ≠ r.id) }
         else { m with selected := r.id :: m.selected }, [])
    | none => (m, [])
  else if k = "j" || k = "down" then
    if m.items.length > 0 && m.cursor + 1 ≥ m.items.length then (m, [Cmd.needNextPage])
    else if m.cursor + 1 < m.items.length then ({ m with cursor := m.cursor + 1 }, [])
    else (m, [])
  else if k = "k" || k = "up" then
    (if m.cursor > 0 then { m with cursor := m.cursor - 1 } else m, [])
  else if k = "esc" then
    ({ m with filterApplied := false }, [])
  else (m, [])

/-- `RunsLoadedMsg` handling of the runs list: store the runs, clear the
multi-selection, move the cursor to the top (errors keep the old list). -/
def RunsView.onRunsLoaded (m : RunsView) (runs : List Run) (err : Option Nat) : RunsView :=
  match err with
  | some _ => m
  | none => { m with items := runs, selected := [], cursor := 0 }

/-- Tab-switch keys "1".."5" (app.go:1063-1108): stop tailing, drop any
fullscreen overlay, and if the tab actually changes, reset the pane and
start the tab's initial fetch. -/
def tabSwitchKey (s : AppState) (k : String) : AppState × List Cmd :=
  let s :=
    if s.tailingJobID > 0 then
      { s with tailingJobID := 0, tailingJobName := "",
               logView := s.logView.setTailing false }
    else s
  let s := { s with logFullScreen := false, infoFullScreen := false }
  if k = "1" then
    (if s.currentView ≠ .runs then
      ({ s with currentView := .runs, focusedPane := .left, status := runsPageStatus }, [])
     else (s, []))
  else if k = "2" then
    (if s.currentView ≠ .workflows then
      ({ s with currentView := .workflows, focusedPane := .left, status := "Workflows" },
       [Cmd.fetchWorkflows])
     else (s, []))
  else if k = "3" then
    (if s.currentView ≠ .metrics then
      ({ s with currentView := .metrics, focusedPane := .left, status := "Loading metrics..." },
       [Cmd.fetchDashboard])
     else (s, []))
  else if k = "4" then
    (if s.currentView ≠ .cacheTab then
      ({ s with currentView := .cacheTab, focusedPane := .left, status := "Loading caches..." },
       [Cmd.fetchCaches])
     else (s, []))
  else
    (if s.currentView ≠ .runners then
      ({ s with currentView := .runners, focusedPane := .left, status := "Loading runners..." },
       [Cmd.fetchRunners])
     else (s, []))

/-- Enter key (app.go:1121-1191).  Left pane: select the run — reset the
attempt cursor, dispatch the job fetch and the merged log fetch
unconditionally, and set or clear the auto-refresh target by run status.
Middle pane: select the job — tail it if incomplete, else show the
cached log (jumping to the failed step) or fetch the single-job log.
(The workflows-tab enter branch applies a workflow filter; the workflows
list is not populated by the modelled alphabet, so it reduces to the
no-selection case and is omitted.) -/
def enterKey (s : AppState) : AppState × List Cmd :=
  if s.currentView = .runs ∧ s.focusedPane = .left then
    if !s.runsView.filtering then
      match s.runsView.selectedRun with
      | some run =>
          ({ s with
              viewingAttempt := 0
              detailsView := s.detailsView.setRun run
              focusedPane := .middle
              status := "Loading jobs..."
              autoRefreshRunID := if run.status = .completed then 0 else run.id },
           [Cmd.fetchJobs run.id, Cmd.fetchLogsMerged run.id])
      | none => (s, [])
    else (s, [])
  else if s.currentView = .runs ∧ s.focusedPane = .middle then
    match s.detailsView.selectedJob with
    | some job =>
        let found := findJobLog s.currentRunLogs job.name
        if job.status ≠ .completed then
          ({ s with
              logView := ((s.logView.setContent job.name (renderStepProgress job)).setTailing true)
              logFullScreen := true
              tailingJobID := job.id
              tailingJobName := job.name
              viewingJob := some job
              status := "Watching " ++ job.name ++ "..." },
           [Cmd.checkJobStatus job.id job.name])
        else
          match found with
          | some content =>
              ({ s with
                  logView := (s.logView.setContent job.name content).gotoLine
                    (failedStepJumpLine job content)
                  logFullScreen := true
                  viewingJob := some job }, [])
          | none =>
              ({ s with
                  logView := s.logView.setLoading
                  logFullScreen := true
                  viewingJob := some job
                  status := "Fetching log for " ++ job.name ++ "..." },
               [Cmd.fetchJobLog job.id job.name])
    | none => (s, [])
  else (s, [])

/-- Attempt-cycle key "a" (app.go:1303-1340): while viewing a job log,
advance the attempt cursor and re-dispatch the log fetch; in the jobs
pane, advance it and re-dispatch both the job and the log fetch.  Both
branches require a multi-attempt run (`run.RunAttempt > 1`). -/
def attemptKey (s : AppState) : AppState × List Cmd :=
  if s.currentView = .runs ∧ s.logFullScreen ∧ ¬s.infoFullScreen then
    match s.detailsView.run with
    | some run =>
        if run.runAttempt > 1 ∧ s.viewingJob ≠ none then
          let va := if s.viewingAttempt + 1 > run.runAttempt then 0 else s.viewingAttempt + 1
          let s := { s with
              viewingAttempt := va
              detailsView := s.detailsView.setAttempt va run.runAttempt }
          if va = 0 then
            ({ s with status := "Loading latest (merged) logs..." }, [Cmd.fetchLogsMerged run.id])
          else
            ({ s with status := "Loading attempt logs..." }, [Cmd.fetchLogsAttempt run.id va])
        else (s, [])
    | none => (s, [])
  else if s.currentView = .runs ∧ s.focusedPane = .middle ∧ ¬s.logFullScreen ∧ ¬s.infoFullScreen then
    match s.detailsView.run with
    | some run =>
        if run.runAttempt > 1 then
          let va := if s.viewingAttempt + 1 > run.runAttempt then 0 else s.viewingAttempt + 1
          let s := { s with
              viewingAttempt := va
              detailsView := s.detailsView.setAttempt va run.runAttempt }
          if va = 0 then
            ({ s with status := "Loading latest (merged) jobs..." },
             [Cmd.fetchJobs run.id, Cmd.fetchLogsMerged run.id])
          else
            ({ s with status := "Loading attempt..." },
             [Cmd.fetchJobsForAttempt run.id va, Cmd.fetchLogsAttempt run.id va])
        else (s, [])
    | none => (s, [])
  else (s, [])

/-- Info key "i" (app.go:1342-1365): open the info overlay for the
selected job (middle pane) or run (left pane); for an incomplete run
with no auto-refresh target, also start one. -/
def infoKey (s : AppState) : AppState × List Cmd :=
  if s.currentView = .runs ∧ ¬s.logFullScreen ∧ ¬s.infoFullScreen then
    if s.focusedPane = .middle then
      match s.detailsView.selectedJob with
      | some job =>
          ({ s with infoView := s.infoView.setJob job, infoFullScreen := true }, [])
      | none => (s, [])
    else
      match s.runsView.selectedRun with
      | some run =>
          let s := { s with infoView := s.infoView.setRun run, infoFullScreen := true }
          if run.status ≠ .completed ∧ s.autoRefreshRunID = 0 then
            ({ s with infoStartedRefresh := true, autoRefreshRunID := run.id },
             [Cmd.fetchJobs run.id, Cmd.scheduleJobsRefresh run.id])
          else (s, [Cmd.fetchJobs run.id])
      | none => (s, [])
  else (s, [])

/-- The main key switch (app.go:1021-1403) for keys that neither quit
nor toggle help.  Confirmation-dialog keys on the workflows/cache tabs
operate on those tabs' selections; their lists are never populated by
the modelled alphabet, so those branches reduce to their no-selection
cases. -/
def keySwitch (s : AppState) (k : String) : AppState × List Cmd :=
  if k = "tab" then
    (if s.currentView = .runs ∧ ¬s.logFullScreen then
      { s with focusedPane := if s.focusedPane = .left then .middle else .left }
     else s, [])
  else if k = "shift+tab" then
    (if s.currentView = .runs ∧ ¬s.logFullScreen then
      { s with focusedPane := if s.focusedPane = .middle then .left else .middle }
     else s, [])
  else if k = "1" ∨ k = "2" ∨ k = "3" ∨ k = "4" ∨ k = "5" then
    tabSwitchKey s k
  else if k = "S" then
    (if s.currentView = .runs ∧ ¬s.logFullScreen ∧ ¬s.infoFullScreen then
      { s with filterOverlay := FilterOverlay.new }
     else s, [])
  else if k = "/" then
    (if s.currentView = .runs ∧ ¬s.logFullScreen then
      { s with searchView := { s.searchView with active := true, inputMode := true } }
     else s, [])
  else if k = "enter" then enterKey s
  else if k = "right" ∨ k = "l" then
    if s.currentView = .runs ∧ s.focusedPane = .left ∧ s.runsHasMore ∧ ¬s.runsLoading then
      ({ s with runsLoading := true, status := "Loading page..." },
       [Cmd.fetchRunsPage (s.runsPage + 1)])
    else (s, [])
  else if k = "left" ∨ k = "h" then
    if s.currentView = .runs ∧ s.focusedPane = .left ∧ s.runsPage > 1 ∧ ¬s.runsLoading then
      ({ s with runsLoading := true, status := "Loading page..." },
       [Cmd.fetchRunsPage (s.runsPage - 1)])
    else (s, [])
  else if k = "r" then
    if s.currentView = .runs then
      ({ s with status := "Refreshing runs..." }, [Cmd.fetchRuns])
    else if s.currentView = .workflows then
      ({ s with status := "Refreshing workflows..." }, [Cmd.fetchWorkflows])
    else if s.currentView = .cacheTab then
      ({ s with status := "Refreshing caches..." }, [Cmd.fetchCaches])
    else if s.currentView = .runners then
      ({ s with status := "Refreshing runners..." }, [Cmd.fetchRunners])
    else (s, [])
  else if k = "R" then
    (if s.currentView = .runs then
      match s.runsView.selectedRun with
      | some run => { s with confirmDialog := ConfirmDialog.new "rerun-all" run.id }
      | none => s
     else s, [])
  else if k = "F" then
    (if s.currentView = .runs then
      match s.runsView.selectedRun with
      | some run => { s with confirmDialog := ConfirmDialog.new "rerun-failed" run.id }
      | none => s
     else s, [])
  else if k = "d" then
    (if s.currentView = .runs then
      if s.runsView.selected.length > 0 then
        { s with confirmDialog := ConfirmDialog.new "delete-selected-runs" 0 }
      else
        match s.runsView.selectedRun with
        | some run => { s with confirmDialog := ConfirmDialog.new "delete-run" run.id }
        | none => s
     else s, [])
  else if k = "C" then
    (if s.currentView = .runs then
      match s.runsView.selectedRun with
      | some run => { s with confirmDialog := ConfirmDialog.new "cancel-run" run.id }
      | none => s
     else s, [])
  else if k = "X" then
    (if s.currentView = .runs then
      match s.runsView.selectedRun with
      | some run => { s with confirmDialog := ConfirmDialog.new "force-cancel-run" run.id }
      | none => s
     else s, [])
  else if k = "a" then attemptKey s
  else if k = "i" then infoKey s
  else if k = "x" then
    (if s.currentView = .cacheTab then
      { s with confirmDialog := ConfirmDialog.new "clear-all-caches" 0 }
     else s, [])
  else (s, [])

/-- End-of-`Update` propagation for key events (app.go:1662-1769).
In the Runs view: full-screen log mode handles exit keys (closing the
overlay, stopping tailing, restoring focus — returning to the search
results when the log was opened from them) and passes other keys to the
log view; full-screen info mode likewise; otherwise the key goes only to
the focused pane, and esc navigates middle→left or clears the
server-side filter.  Key events reaching other tabs' views only move
their cursors/viewports (not modelled). -/
def propagateKey (s : AppState) (k : String) : AppState × List Cmd :=
  match s.currentView with
  | .runs =>
      if s.logFullScreen then
        if (k = "esc" || k = "backspace" || k = "delete") ∧ ¬s.logView.searching then
          let s := { s with
              logFullScreen := false
              tailingJobID := 0
              tailingJobName := ""
              viewingJob := none
              logView := s.logView.setTailing false }
          if s.cameFromSearch then
            ({ s with
                cameFromSearch := false
                searchView := { s.searchView with active := true, inputMode := false }
                focusedPane := .left }, [])
          else ({ s with focusedPane := .middle }, [])
        else ({ s with logView := s.logView.updateKey k }, [])
      else if s.infoFullScreen then
        if k = "esc" || k = "backspace" || k = "delete" then
          let s := { s with
              infoFullScreen := false
              focusedPane := if s.infoView.showingJob then .middle else .left }
          if s.infoStartedRefresh then
            ({ s with autoRefreshRunID := 0, infoStartedRefresh := false }, [])
          else (s, [])
        else (s, [])
      else
        let hadFilter := s.runsView.hasActiveFilter
        let (s, cmds) :=
          match s.focusedPane with
          | .left =>
              let (rv, cs) := s.runsView.updateKey k
              ({ s with runsView := rv }, cs)
          | .middle => ({ s with detailsView := s.detailsView.updateKey k }, [])
          | .right => (s, [])
        if k = "esc" then
          if s.focusedPane = .middle then ({ s with focusedPane := .left }, cmds)
          else if s.focusedPane = .left ∧ ¬hadFilter then
            if s.runsFilterSet then
              ({ s with
                  runsFilterSet := false
                  runsView := RunsView.new
                  status := "Loading runs..." }, cmds ++ [Cmd.fetchRuns])
            else (s, cmds)
          else (s, cmds)
        else (s, cmds)
  | _ => (s, [])

/-- Key-event handling: the help overlay, quit, help toggle, then the
main key switch followed by key propagation (app.go:1007-1403,
1662-1769). -/
def handleKey (s : AppState) (k : String) : AppState × List Cmd :=
  if s.showHelp then
    if k = "esc" || k = "?" || k = "q" then ({ s with showHelp := false }, [])
    else (s, [])
  else if k = "q" || k = "ctrl+c" then (s, [Cmd.quit])
  else if k = "?" then ({ s with showHelp := true }, [])
  else
    let (s₁, c₁) := keySwitch s k
    let (s₂, c₂) := propagateKey s₁ k
    (s₂, c₁ ++ c₂)

/-- `RunsLoadedMsg` (app.go:1439-1450) plus its propagation to the
active tab's views: reset pagination, reschedule the refresher, and feed
the list (all tabs forward run-list results to the runs list so it stays
warm). -/
def handleRunsLoaded (s : AppState) (runs : List Run) (totalCount : Nat)
    (err : Option Nat) : AppState × List Cmd :=
  let s :=
    match err with
    | none =>
        { s with runsPage := 1, runsTotalCount := totalCount,
                 runsHasMore := runs.length ≥ 30, runsLoading := false,
                 status := runsPageStatus }
    | some _ => { s with runsLoading := false, status := "Error loading runs" }
  ({ s with runsView := s.runsView.onRunsLoaded runs err }, [Cmd.scheduleRunsRefresh])

/-- `JobsLoadedMsg` (app.go:1464-1494) plus its propagation: update the
status, feed the info overlay when it is showing this run, drive the
auto-refresh loop (fetch the merged logs once every job completed, else
schedule the next tick), and feed the jobs pane. -/
def handleJobsLoaded (s : AppState) (runID : Int) (jobs : List Job)
    (err : Option Nat) : AppState × List Cmd :=
  let (s, cmds) :=
    match err with
    | none =>
        let s := { s with status := "jobs loaded" }
        let s :=
          if s.infoFullScreen ∧ (s.infoView.run.map Run.id) = some runID then
            { s with infoView := s.infoView.setJobs jobs }
          else s
        if s.autoRefreshRunID = runID then
          if jobs.all (fun j => j.status == RunStatus.completed) then
            let s := { s with autoRefreshRunID := 0, status := "all jobs completed" }
            match s.runsView.runByID runID with
            | some _ => (s, [Cmd.fetchLogsMerged runID])
            | none => (s, [])
          else (s, [Cmd.scheduleJobsRefresh runID])
        else (s, [])
    | some _ => ({ s with status := "Error loading jobs" }, [])
  if s.currentView = View.runs then
    ({ s with detailsView := s.detailsView.onJobsLoaded jobs err }, cmds)
  else (s, cmds)

/-- `JobTailStatusMsg` (app.go:1524-1547): applied only when the carried
job ID is still the current tailing target; an error retries, completion
stops tailing and fetches the job log, progress re-renders and
reschedules.  (No modelled sub-view consumes this message kind, so its
propagation is the identity.) -/
def handleJobTailStatus (s : AppState) (jobID : Int) (jobName : String)
    (job : Option Job) (completed : Bool) (err : Option Nat) : AppState × List Cmd :=
  if s.tailingJobID = jobID then
    match err with
    | some _ =>
        ({ s with
            logView := s.logView.updateContent "error fetching job status"
            status := "Error watching, retrying..." },
         [Cmd.scheduleLogRefresh jobID jobName])
    | none =>
        if completed then
          ({ s with
              tailingJobID := 0
              tailingJobName := ""
              logView := (s.logView.setTailing false).setLoading
              viewingJob := match job with | some j => some j | none => s.viewingJob
              status := "Job completed, loading logs..." },
           [Cmd.fetchJobLog jobID jobName])
        else
          match job with
          | some j =>
              ({ s with
                  logView := s.logView.updateContent (renderStepProgress j)
                  status := "Watching..." },
               [Cmd.scheduleLogRefresh jobID jobName])
          | none => (s, [])
  else (s, [])

/-- `LogTailTickMsg` (app.go:1519-1522). -/
def handleLogTailTick (s : AppState) (jobID : Int) (jobName : String) : AppState × List Cmd :=
  if s.tailingJobID = jobID ∧ s.logFullScreen then
    (s, [Cmd.checkJobStatus jobID jobName])
  else (s, [])

/-- The controller's `Update` (app.go:834-1811) over the modelled
alphabet: the overlay interception chain in source order — confirmation
dialog, filter overlay, search overlay, in-log search typing, list
filter typing — then the main message switch with its propagation. -/
def update (s : AppState) (msg : Msg) : AppState × List Cmd :=
  if s.confirmDialog.active then confirmRoute s msg
  else if s.filterOverlay.active then filterRoute s msg
  else if s.searchView.active then searchRoute s msg
  else
    match msg with
    | .key k =>
        if s.logFullScreen ∧ s.logView.searching then
          ({ s with logView := s.logView.updateKey k }, [])
        else if isListFiltering s then
          match s.currentView with
          | .runs =>
              let (rv, cs) := s.runsView.updateKey k
              ({ s with runsView := rv }, cs)
          | _ => (s, [])
        else handleKey s k
    | .runsLoaded runs totalCount err => handleRunsLoaded s runs totalCount err
    | .jobsLoaded runID jobs err => handleJobsLoaded s runID jobs err
    | .jobTailStatus jobID jobName job completed err =>
        handleJobTailStatus s jobID jobName job completed err
    | .logTailTick jobID jobName => handleLogTailTick s jobID jobName

/-- States reachable from the initial state by handled events. -/
inductive Reachable : AppState → Prop where
  | init : Reachable initApp
  | step {s : AppState} (msg : Msg) : Reachable s → Reachable (update s msg).1

/-- At most one of the three input-capturing overlays (confirmation
dialog, filter form, search) is active. -/
def inputOverlaysExclusive (s : AppState) : Prop :=
  (if s.confirmDialog.active then 1 else 0) +
  (if s.filterOverlay.active then 1 else 0) +
  (if s.searchView.active then 1 else 0) ≤ 1

instance (s : AppState) : Decidable (inputOverlaysExclusive s) := by
  unfold inputOverlaysExclusive; infer_instance

/-! ## Lemmas: association-list maps and the merge -/

theorem lookupM_mapSet_self (m : LogMap) (k v : String) :
    lookupM (mapSet m k v) k = some v := by
  induction m with
  | nil => simp [mapSet, lookupM]
  | cons kv rest ih =>
      by_cases h : kv.1 = k
      · simp [mapSet, h, lookupM]
      · simp [mapSet, h, lookupM, ih]

theorem lookupM_mapSet_ne (m : LogMap) (k v kq : String) (h : kq ≠ k) :
    lookupM (mapSet m k v) kq = lookupM m kq := by
  have hne : ¬(k = kq) := fun hc => h hc.symm
  induction m with
  | nil => simp [mapSet, lookupM, hne]
  | cons kv rest ih =>
      by_cases hk : kv.1 = k
      · subst hk
        simp [mapSet, lookupM, hne]
      · by_cases hq : kv.1 = kq
        · simp [mapSet, hk, lookupM, hq, h]
        · simp [mapSet, hk, lookupM, hq, ih]

theorem lookupM_mergeEntry_self (m : LogMap) (k v : String) :
    lookupM (mergeEntry m k v) k = longerWins (lookupM m k) v := by
  unfold mergeEntry longerWins
  cases h : lookupM m k with
  | none => simp [lookupM_mapSet_self]
  | some existing =>
      by_cases hl : v.length > existing.length
      · simp [hl, lookupM_mapSet_self]
      · simp [hl, h]

theorem lookupM_mergeEntry_ne (m : LogMap) (k v kq : String) (h : kq ≠ k) :
    lookupM (mergeEntry m k v) kq = lookupM m kq := by
  unfold mergeEntry
  cases lookupM m k with
  | none => exact lookupM_mapSet_ne m k v kq h
  | some existing =>
      by_cases hl : v.length > existing.length
      · simp [hl, lookupM_mapSet_ne m k v kq h]
      · simp [hl]

theorem lookupM_eq_none_iff (m : LogMap) (k : String) :
    lookupM m k = none ↔ k ∉ m.map Prod.fst := by
  induction m with
  | nil => simp [lookupM]
  | cons kv rest ih =>
      by_cases h : kv.1 = k
      · simp [lookupM, h]
      · have hne : ¬(k = kv.1) := fun hc => h hc.symm
        simp [lookupM, h, ih, hne]

theorem lookupM_mergeAttemptLogs_of_none (logs : LogMap) (m : LogMap) (k : String)
    (h : lookupM logs k = none) :
    lookupM (mergeAttemptLogs m logs) k = lookupM m k := by
  induction logs generalizing m with
  | nil => simp [mergeAttemptLogs]
  | cons kv rest ih =>
      unfold lookupM at h
      by_cases hk : kv.1 = k
      · simp [hk] at h
      · simp only [hk, if_false] at h
        show lookupM (mergeAttemptLogs (mergeEntry m kv.1 kv.2) rest) k = lookupM m k
        rw [ih (mergeEntry m kv.1 kv.2) h]
        exact lookupM_mergeEntry_ne m kv.1 kv.2 k (fun hc => hk hc.symm)

theorem lookupM_mergeAttemptLogs (logs : LogMap) (hnd : KeysNodup logs)
    (m : LogMap) (k : String) :
    lookupM (mergeAttemptLogs m logs) k =
      match lookupM logs k with
      | some v => longerWins (lookupM m k) v
      | none => lookupM m k := by
  induction logs generalizing m with
  | nil => simp [mergeAttemptLogs, lookupM]
  | cons kv rest ih =>
      have hnd' : KeysNodup rest := by
        unfold KeysNodup at hnd ⊢
        exact (List.nodup_cons.mp hnd).2
      have hkv : kv.1 ∉ rest.map Prod.fst := by
        unfold KeysNodup at hnd
        exact (List.nodup_cons.mp hnd).1
      show lookupM (mergeAttemptLogs (mergeEntry m kv.1 kv.2) rest) k = _
      by_cases hk : kv.1 = k
      · subst hk
        have hrest : lookupM rest kv.1 = none := (lookupM_eq_none_iff rest kv.1).mpr hkv
        rw [lookupM_mergeAttemptLogs_of_none rest _ kv.1 hrest]
        rw [lookupM_mergeEntry_self]
        simp [lookupM]
      · rw [ih hnd' (mergeEntry m kv.1 kv.2)]
        have hme := lookupM_mergeEntry_ne m kv.1 kv.2 k (fun hc => hk hc.symm)
        simp only [lookupM, hk, if_false, hme]

/-- Every successful slot carries a well-formed map (true of Go maps). -/
def OkSlotsNodup (results : List FetchOutcome) : Prop :=
  ∀ r ∈ results, ∀ logs, r = FetchOutcome.ok logs → KeysNodup logs

theorem lookupM_foldl_slotStep (results : List FetchOutcome)
    (hok : OkSlotsNodup results) (m : LogMap) (k : String) :
    lookupM (results.foldl slotStep m) k = results.foldl (oneKeyStep k) (lookupM m k) := by
  induction results generalizing m with
  | nil => simp
  | cons r rest ih =>
      have hok' : OkSlotsNodup rest := fun x hx => hok x (List.mem_cons_of_mem r hx)
      have hr : ∀ logs, r = FetchOutcome.ok logs → KeysNodup logs :=
        hok r (List.mem_cons_self r rest)
      simp only [List.foldl_cons]
      rw [ih hok']
      congr 1
      cases r with
      | fail e => simp [slotStep, oneKeyStep]
      | ok logs =>
          have hnd := hr logs rfl
          simp only [slotStep, oneKeyStep]
          rw [lookupM_mergeAttemptLogs logs hnd m k]

/-- Slots that never mention key `k` leave its merged value unchanged. -/
theorem lookupM_foldl_slotStep_of_absent (results : List FetchOutcome)
    (m : LogMap) (k : String)
    (habs : ∀ r ∈ results, ∀ logs, r = FetchOutcome.ok logs → lookupM logs k = none) :
    lookupM (results.foldl slotStep m) k = lookupM m k := by
  induction results generalizing m with
  | nil => simp
  | cons r rest ih =>
      have habs' : ∀ x ∈ rest, ∀ logs, x = FetchOutcome.ok logs → lookupM logs k = none :=
        fun x hx => habs x (List.mem_cons_of_mem r hx)
      simp only [List.foldl_cons]
      rw [ih _ habs']
      cases r with
      | fail e => simp [slotStep]
      | ok logs =>
          exact lookupM_mergeAttemptLogs_of_none logs m k (habs _ (List.mem_cons_self _ _) logs rfl)

theorem mapSet_eq_append_of_none (m : LogMap) (k v : String)
    (h : lookupM m k = none) : mapSet m k v = m ++ [(k, v)] := by
  induction m with
  | nil => simp [mapSet]
  | cons kv rest ih =>
      unfold lookupM at h
      by_cases hk : kv.1 = k
      · simp [hk] at h
      · simp only [hk, if_false] at h
        simp [mapSet, hk, ih h]

theorem mergeAttemptLogs_eq_append (logs : LogMap) (m : LogMap)
    (hnd : KeysNodup (m ++ logs)) : mergeAttemptLogs m logs = m ++ logs := by
  induction logs generalizing m with
  | nil => simp [mergeAttemptLogs]
  | cons kv rest ih =>
      have hmap : (m.map Prod.fst ++ kv.1 :: rest.map Prod.fst).Nodup := by
        unfold KeysNodup at hnd
        simpa using hnd
      have hnotm : kv.1 ∉ m.map Prod.fst := by
        rcases List.nodup_append.mp hmap with ⟨_, _, hdisj⟩
        intro hmem
        exact hdisj hmem (List.mem_cons_self _ _)
      have hnone : lookupM m kv.1 = none := (lookupM_eq_none_iff m kv.1).mpr hnotm
      have hstep : mergeEntry m kv.1 kv.2 = m ++ [kv] := by
        unfold mergeEntry
        rw [hnone, mapSet_eq_append_of_none m kv.1 kv.2 hnone]
      show mergeAttemptLogs (mergeEntry m kv.1 kv.2) rest = m ++ kv :: rest
      rw [hstep]
      have hnd' : KeysNodup ((m ++ [kv]) ++ rest) := by
        unfold KeysNodup at hnd ⊢
        simpa using hnd
      rw [ih (m ++ [kv]) hnd']
      simp

/-- Claim C1: merging per-attempt job-log maps folds the slots in
ascending attempt order and, for each job name, a later attempt's
content replaces the accumulated value exactly when strictly longer
(`longerWins`); in particular with a 40-char attempt-1 log and an
18-char attempt-2 stub for job "build", the merged value for "build" is
the attempt-1 content for every attempt count ≥ 2 (slots beyond the
first two not mentioning "build"). -/
theorem C1_merge_longer_wins :
    (∀ (results : List FetchOutcome) (k : String), OkSlotsNodup results →
        lookupM (mergeSlots results) k = mergedValueSpec results k) ∧
    (∀ rest : List FetchOutcome,
        (∀ r ∈ rest, ∀ logs, r = FetchOutcome.ok logs → lookupM logs "build" = none) →
        lookupM (mergeSlots (FetchOutcome.ok [("build", contentA)] ::
          FetchOutcome.ok [("build", contentStub)] :: rest)) "build" = some contentA) := by
  constructor
  · intro results k hok
    unfold mergeSlots mergedValueSpec
    rw [lookupM_foldl_slotStep results hok [] k]
    rfl
  · intro rest habs
    unfold mergeSlots
    simp only [List.foldl_cons]
    rw [lookupM_foldl_slotStep_of_absent rest _ "build" habs]
    decide

theorem C1_merge_longer_wins_witness :
    lookupM (mergeSlots [FetchOutcome.ok [("build", contentA)],
      FetchOutcome.ok [("build", contentStub)], FetchOutcome.fail 0]) "build" =
        some contentA := by
  have h := C1_merge_longer_wins.2 [FetchOutcome.fail 0]
    (by
      intro r hr logs heq
      rw [List.mem_singleton] at hr
      subst hr
      cases heq)
  exact h

/-- Claim C2: in the multi-attempt merge, a failure on a non-final
attempt contributes no data and no error; the merge errors exactly when
the merged map is empty, with the recorded final-attempt error when one
exists and the generic error otherwise; a non-empty merge succeeds even
when the final attempt failed, and in particular attempt 1 failing with
attempt 2 succeeding non-empty yields attempt 2's jobs with no error. -/
theorem C2_merge_error_policy :
    (∀ (l₁ l₂ : List FetchOutcome) (e : Nat), l₂ ≠ [] →
        fetchLogsMerge (l₁ ++ FetchOutcome.fail e :: l₂) =
          fetchLogsMerge (l₁ ++ FetchOutcome.ok [] :: l₂)) ∧
    (∀ results : List FetchOutcome, mergeSlots results ≠ [] →
        fetchLogsMerge results = .ok (mergeSlots results)) ∧
    (∀ (results : List FetchOutcome) (e : Nat), mergeSlots results = [] →
        results.getLast? = some (FetchOutcome.fail e) →
        fetchLogsMerge results = .error (.api e)) ∧
    (∀ results : List FetchOutcome, mergeSlots results = [] →
        finalAttemptErr results = none →
        fetchLogsMerge results = .error .noLogs) ∧
    (∀ (e : Nat) (logs : LogMap), KeysNodup logs → logs ≠ [] →
        fetchLogsMerge [FetchOutcome.fail e, FetchOutcome.ok logs] = .ok logs) := by
  refine ⟨?_, ?_, ?_, ?_, ?_⟩
  · intro l₁ l₂ e hne
    have hmerged : mergeSlots (l₁ ++ FetchOutcome.fail e :: l₂) =
        mergeSlots (l₁ ++ FetchOutcome.ok [] :: l₂) := by
      unfold mergeSlots
      rw [List.foldl_append, List.foldl_append]
      simp [slotStep, mergeAttemptLogs]
    have hlast : (l₁ ++ FetchOutcome.fail e :: l₂).getLast? =
        (l₁ ++ FetchOutcome.ok [] :: l₂).getLast? := by
      obtain ⟨b, t, rfl⟩ := List.exists_cons_of_ne_nil hne
      simp [List.getLast?_append, List.getLast?_cons_cons]
    unfold fetchLogsMerge finalAttemptErr
    rw [hmerged, hlast]
  · intro results hne
    unfold fetchLogsMerge
    simp [List.isEmpty_iff, hne]
  · intro results e hempty hlast
    unfold fetchLogsMerge finalAttemptErr
    rw [hlast]
    simp [List.isEmpty_iff, hempty]
  · intro results hempty herr
    unfold fetchLogsMerge
    rw [herr]
    simp [List.isEmpty_iff, hempty]
  · intro e logs hnd hne
    have hmerged : mergeSlots [FetchOutcome.fail e, FetchOutcome.ok logs] = logs := by
      unfold mergeSlots
      simp only [List.foldl_cons, List.foldl_nil]
      show mergeAttemptLogs [] logs = logs
      have := mergeAttemptLogs_eq_append logs [] (by simpa using hnd)
      simpa using this
    unfold fetchLogsMerge
    rw [hmerged]
    simp [List.isEmpty_iff, hne]

theorem C2_merge_error_policy_witness :
    fetchLogsMerge [FetchOutcome.fail 1, FetchOutcome.ok [("job", "x")]] =
      .ok [("job", "x")] :=
  C2_merge_error_policy.2.2.2.2 1 [("job", "x")] (by decide) (by decide)

/-! ## Lemmas: cached-log lookup -/

theorem lookupM_some_mem (m : LogMap) (k v : String)
    (h : lookupM m k = some v) : (k, v) ∈ m := by
  induction m with
  | nil => simp [lookupM] at h
  | cons kv rest ih =>
      unfold lookupM at h
      by_cases hk : kv.1 = k
      · subst hk
        simp only [if_true] at h
        cases h
        exact List.mem_cons_self _ _
      · simp only [hk, if_false] at h
        exact List.mem_cons_of_mem _ (ih h)

theorem goContains_empty_right (s : String) : goContains s "" = true := by
  unfold goContains
  show containsSub s.data [] = true
  cases s.data with
  | nil => rfl
  | cons c t => simp [containsSub, startsWithL]

/-- Claim C10: `findJobLog` is a two-phase lookup — the map entry on an
exact key match; otherwise some entry whose key contains the queried
name or is contained in it, failing exactly when no entry matches; in
particular on a non-empty map the empty name always succeeds. -/
theorem C10_find_job_log :
    (∀ (logs : LogMap) (name content : String),
        lookupM logs name = some content → findJobLog logs name = some content) ∧
    (∀ (logs : LogMap) (name content : String),
        lookupM logs name = none → findJobLog logs name = some content →
        ∃ k, (k, content) ∈ logs ∧ (goContains k name || goContains name k) = true) ∧
    (∀ (logs : LogMap) (name : String),
        findJobLog logs name = none ↔
          ∀ kv ∈ logs, kv.1 ≠ name ∧ (goContains kv.1 name || goContains name kv.1) = false) ∧
    (∀ logs : LogMap, logs ≠ [] → (findJobLog logs "").isSome) := by
  refine ⟨?_, ?_, ?_, ?_⟩
  · intro logs name content h
    unfold findJobLog
    rw [h]
  · intro logs name content hnone hfind
    unfold findJobLog at hfind
    rw [hnone] at hfind
    simp only [Option.map_eq_some'] at hfind
    obtain ⟨kv, hkv, hsnd⟩ := hfind
    refine ⟨kv.1, ?_, ?_⟩
    · rw [← hsnd]
      exact List.mem_of_find?_eq_some hkv
    · have := List.find?_some hkv
      simpa using this
  · intro logs name
    unfold findJobLog
    cases h : lookupM logs name with
    | some v =>
        constructor
        · intro h'
          simp at h'
        · intro hall
          exfalso
          have hmem := lookupM_some_mem logs name v h
          have := (hall (name, v) hmem).1
          simp at this
    | none =>
        have hkeys := (lookupM_eq_none_iff logs name).mp h
        simp only [Option.map_eq_none', List.find?_eq_none]
        constructor
        · intro hall kv hkv
          refine ⟨?_, ?_⟩
          · intro hk
            exact hkeys (by rw [← hk]; exact List.mem_map_of_mem Prod.fst hkv)
          · have := hall kv hkv
            simpa using this
        · intro hall kv hkv
          have := (hall kv hkv).2
          simp [this]
  · intro logs hne
    obtain ⟨kv, rest, rfl⟩ := List.exists_cons_of_ne_nil hne
    unfold findJobLog
    cases h : lookupM (kv :: rest) "" with
    | some v => simp
    | none =>
        have hfirst : (goContains kv.1 "" || goContains "" kv.1) = true := by
          rw [goContains_empty_right kv.1]
          simp
        simp [List.find?_cons, hfirst]

/-! ## Lemmas: bulk delete aggregation -/

theorem deleteFold_count (ids : List Int) (outcome : Int → Option Nat) :
    ∀ acc : Nat × Option Nat,
      (ids.foldl (fun (acc : Nat × Option Nat) id =>
        match outcome id with
        | some e => (acc.1, some e)
        | none => (acc.1 + 1, acc.2)) acc).1 =
      acc.1 + (ids.filter (fun i => (outcome i).isNone)).length := by
  induction ids with
  | nil => simp
  | cons i rest ih =>
      intro acc
      simp only [List.foldl_cons]
      cases h : outcome i with
      | some e => simp [h, ih, List.filter_cons]
      | none => simp [h, ih, List.filter_cons, Nat.add_assoc, Nat.add_comm 1]

theorem deleteFold_lastErr (ids : List Int) (outcome : Int → Option Nat) :
    ∀ acc : Nat × Option Nat,
      (ids.foldl (fun (acc : Nat × Option Nat) id =>
        match outcome id with
        | some e => (acc.1, some e)
        | none => (acc.1 + 1, acc.2)) acc).2.isSome =
      (acc.2.isSome || ids.any (fun i => (outcome i).isSome)) := by
  induction ids with
  | nil => simp
  | cons i rest ih =>
      intro acc
      simp only [List.foldl_cons]
      cases h : outcome i with
      | some e => simp [h, ih]
      | none => simp [h, ih]

/-- Claim C5: the bulk delete attempts every target once and never
aborts: the success count is the number of succeeding targets, the total
is the list length, the last-error slot is set exactly when some target
failed; e.g. 5 targets failing on the 2nd and 4th yield 3/5 with a
non-nil error. -/
theorem C5_bulk_delete_aggregation :
    (∀ (ids : List Int) (outcome : Int → Option Nat),
        (deleteIDsConcurrently ids outcome).succeededCount =
          (ids.filter (fun i => (outcome i).isNone)).length) ∧
    (∀ (ids : List Int) (outcome : Int → Option Nat),
        (deleteIDsConcurrently ids outcome).totalCount = ids.length) ∧
    (∀ (ids : List Int) (outcome : Int → Option Nat),
        (deleteIDsConcurrently ids outcome).lastError.isSome =
          ids.any (fun i => (outcome i).isSome)) ∧
    (deleteIDsConcurrently [1, 2, 3, 4, 5]
        (fun i => if i = 2 ∨ i = 4 then some 7 else none) =
      { succeededCount := 3, totalCount := 5, lastError := some 7 }) := by
  refine ⟨?_, ?_, ?_, ?_⟩
  · intro ids outcome
    unfold deleteIDsConcurrently
    simpa using deleteFold_count ids outcome (0, none)
  · intro ids outcome
    rfl
  · intro ids outcome
    unfold deleteIDsConcurrently
    simpa using deleteFold_lastErr ids outcome (0, none)
  · decide

theorem C10_find_job_log_witness :
    (findJobLog [("a", "x")] "").isSome :=
  C10_find_job_log.2.2.2 [("a", "x")] (by decide)

/-! ## Lemmas: cache eviction -/

theorem sizeSweep_spec (maxSize : Int) (l : List FileEntry) :
    ∃ k, sizeSweep maxSize l (sumSizes l) = (l.drop k, sumSizes (l.drop k)) ∧
      (∀ j, j < k → maxSize < sumSizes (l.drop j)) ∧
      (sumSizes (l.drop k) ≤ maxSize ∨ k = l.length) := by
  induction l with
  | nil =>
      refine ⟨0, by simp [sizeSweep], by omega, Or.inr rfl⟩
  | cons e rest ih =>
      by_cases h : sumSizes (e :: rest) ≤ maxSize
      · refine ⟨0, by simp [sizeSweep, h], by omega, Or.inl (by simpa using h)⟩
      · obtain ⟨k, hk, hstop, hend⟩ := ih
        have harg : sumSizes (e :: rest) - e.size = sumSizes rest := by
          simp [sumSizes]
        refine ⟨k + 1, ?_, ?_, ?_⟩
        · show sizeSweep maxSize (e :: rest) (sumSizes (e :: rest)) = _
          unfold sizeSweep
          rw [if_neg h, harg, hk]
          simp
        · intro j hj
          cases j with
          | zero => simpa using lt_of_not_ge h
          | succ j' =>
              have : j' < k := by omega
              simpa using hstop j' this
        · cases hend with
          | inl hle => exact Or.inl (by simpa using hle)
          | inr hlen => exact Or.inr (by simp [hlen])

theorem sumSizes_perm {l₁ l₂ : List FileEntry} (h : l₁.Perm l₂) :
    sumSizes l₁ = sumSizes l₂ :=
  List.Perm.sum_eq (h.map FileEntry.size)

theorem mem_ttlRemaining_iff (now ttl : Int) (entries : List FileEntry) (e : FileEntry) :
    e ∈ ttlRemaining now ttl entries ↔ e ∈ entries ∧ ¬(now - e.modTime > ttl) := by
  unfold ttlRemaining
  simp [List.mem_filter]

theorem evict_remaining_subset (now ttl maxSize : Int) (entries : List FileEntry) :
    ∀ e ∈ (evict now ttl maxSize entries).1, e ∈ ttlRemaining now ttl entries := by
  intro e he
  unfold evict at he
  by_cases h : sumSizes (ttlRemaining now ttl entries) > maxSize
  · simp only [h, if_true] at he
    have hperm := List.mergeSort_perm (ttlRemaining now ttl entries) byModTime
    have hsum : sumSizes ((ttlRemaining now ttl entries).mergeSort byModTime) =
        sumSizes (ttlRemaining now ttl entries) := sumSizes_perm hperm
    obtain ⟨k, hk, -, -⟩ :=
      sizeSweep_spec maxSize ((ttlRemaining now ttl entries).mergeSort byModTime)
    rw [← hsum, hk] at he
    have : e ∈ (ttlRemaining now ttl entries).mergeSort byModTime :=
      List.drop_subset k _ he
    exact hperm.mem_iff.mp this
  · simp only [h, if_false] at he
    exact he

/-- Claim C3: with distinct modification times and the non-expired total
above the cap, the size sweep deletes an oldest-first prefix of the
time-sorted entries, stops as soon as the remaining total is within the
cap, keeps every entry newer than all deleted ones, and ends with the
tracked total within the cap. -/
theorem C3_size_eviction (now ttl maxSize : Int) (entries : List FileEntry)
    (hdistinct : (ttlRemaining now ttl entries).Pairwise (fun a b => a.modTime ≠ b.modTime))
    (hover : sumSizes (ttlRemaining now ttl entries) > maxSize)
    (hcap : 0 ≤ maxSize) :
    ∃ k,
      evict now ttl maxSize entries =
        (((ttlRemaining now ttl entries).mergeSort byModTime).drop k,
         sumSizes (((ttlRemaining now ttl entries).mergeSort byModTime).drop k)) ∧
      sumSizes (((ttlRemaining now ttl entries).mergeSort byModTime).drop k) ≤ maxSize ∧
      (∀ j, j < k →
        maxSize < sumSizes (((ttlRemaining now ttl entries).mergeSort byModTime).drop j)) ∧
      (∀ d ∈ ((ttlRemaining now ttl entries).mergeSort byModTime).take k,
       ∀ r ∈ ((ttlRemaining now ttl entries).mergeSort byModTime).drop k,
        d.modTime < r.modTime) ∧
      (∀ e ∈ ttlRemaining now ttl entries,
        (∀ d ∈ ((ttlRemaining now ttl entries).mergeSort byModTime).take k,
          d.modTime < e.modTime) →
        e ∈ ((ttlRemaining now ttl entries).mergeSort byModTime).drop k) := by
  have hperm := List.mergeSort_perm (ttlRemaining now ttl entries) byModTime
  have hsum : sumSizes ((ttlRemaining now ttl entries).mergeSort byModTime) =
      sumSizes (ttlRemaining now ttl entries) := sumSizes_perm hperm
  obtain ⟨k, hk, hstop, hend⟩ :=
    sizeSweep_spec maxSize ((ttlRemaining now ttl entries).mergeSort byModTime)
  have hle : ((ttlRemaining now ttl entries).mergeSort byModTime).Pairwise
      (fun a b => a.modTime ≤ b.modTime) := by
    have hs := @List.sorted_mergeSort FileEntry byModTime
      (by intro a b c hab hbc
          simp only [byModTime, decide_eq_true_eq] at hab hbc ⊢
          omega)
      (by intro a b; simp only [byModTime, Bool.or_eq_true, decide_eq_true_eq]; omega)
      (ttlRemaining now ttl entries)
    exact hs.imp (by intro a b hab; simpa [byModTime] using hab)
  have hne : ((ttlRemaining now ttl entries).mergeSort byModTime).Pairwise
      (fun a b => a.modTime ≠ b.modTime) := by
    refine (List.Perm.pairwise_iff ?_ hperm).mpr hdistinct
    intro x y hxy
    exact hxy.symm
  have hlt : ((ttlRemaining now ttl entries).mergeSort byModTime).Pairwise
      (fun a b => a.modTime < b.modTime) := by
    have := hle.and hne
    exact this.imp (fun h => lt_of_le_of_ne h.1 h.2)
  have hsplit := List.pairwise_append.mp
    (by rw [List.take_append_drop k ((ttlRemaining now ttl entries).mergeSort byModTime)]
        exact hlt)
  refine ⟨k, ?_, ?_, hstop, hsplit.2.2, ?_⟩
  · unfold evict
    rw [if_pos hover, ← hsum, hk]
  · cases hend with
    | inl hle' => exact hle'
    | inr hlen =>
        rw [hlen, List.drop_length]
        simpa [sumSizes] using hcap
  · intro e hmem hnewer
    have hmem' : e ∈ ((ttlRemaining now ttl entries).mergeSort byModTime) :=
      hperm.mem_iff.mpr hmem
    rw [← List.take_append_drop k ((ttlRemaining now ttl entries).mergeSort byModTime)]
      at hmem'
    rcases List.mem_append.mp hmem' with htake | hdrop
    · exact absurd (hnewer e htake) (lt_irrefl e.modTime)
    · exact hdrop

theorem C3_size_eviction_witness :
    ∃ k,
      evict 3 100 15
        [⟨"f1", 1, 10⟩, ⟨"f2", 2, 10⟩, ⟨"f3", 3, 10⟩] =
        (((ttlRemaining 3 100 [⟨"f1", 1, 10⟩, ⟨"f2", 2, 10⟩, ⟨"f3", 3, 10⟩]).mergeSort
            byModTime).drop k,
         sumSizes (((ttlRemaining 3 100 [⟨"f1", 1, 10⟩, ⟨"f2", 2, 10⟩, ⟨"f3", 3, 10⟩]).mergeSort
            byModTime).drop k)) ∧
      sumSizes (((ttlRemaining 3 100 [⟨"f1", 1, 10⟩, ⟨"f2", 2, 10⟩, ⟨"f3", 3, 10⟩]).mergeSort
          byModTime).drop k) ≤ 15 ∧
      (∀ j, j < k →
        15 < sumSizes (((ttlRemaining 3 100 [⟨"f1", 1, 10⟩, ⟨"f2", 2, 10⟩, ⟨"f3", 3, 10⟩]).mergeSort
            byModTime).drop j)) ∧
      (∀ d ∈ ((ttlRemaining 3 100 [⟨"f1", 1, 10⟩, ⟨"f2", 2, 10⟩, ⟨"f3", 3, 10⟩]).mergeSort
          byModTime).take k,
       ∀ r ∈ ((ttlRemaining 3 100 [⟨"f1", 1, 10⟩, ⟨"f2", 2, 10⟩, ⟨"f3", 3, 10⟩]).mergeSort
          byModTime).drop k,
        d.modTime < r.modTime) ∧
      (∀ e ∈ ttlRemaining 3 100 [⟨"f1", 1, 10⟩, ⟨"f2", 2, 10⟩, ⟨"f3", 3, 10⟩],
        (∀ d ∈ ((ttlRemaining 3 100 [⟨"f1", 1, 10⟩, ⟨"f2", 2, 10⟩, ⟨"f3", 3, 10⟩]).mergeSort
            byModTime).take k,
          d.modTime < e.modTime) →
        e ∈ ((ttlRemaining 3 100 [⟨"f1", 1, 10⟩, ⟨"f2", 2, 10⟩, ⟨"f3", 3, 10⟩]).mergeSort
            byModTime).drop k) :=
  C3_size_eviction 3 100 15 [⟨"f1", 1, 10⟩, ⟨"f2", 2, 10⟩, ⟨"f3", 3, 10⟩]
    (by decide) (by decide) (by decide)

theorem hasRun_iff (dirs : List DirEntry) (now ttl runID attempt : Int)
    (huniq : dirs.Pairwise (fun a b => ¬(a.runID = b.runID ∧ a.attempt = b.attempt))) :
    hasRun dirs now ttl runID attempt = true ↔
      ∃ d ∈ dirs, d.runID = runID ∧ d.attempt = attempt ∧ now - d.modTime < ttl := by
  unfold hasRun
  cases hfind : dirs.find? (fun d => d.runID == runID && d.attempt == attempt) with
  | none =>
      simp only [Bool.false_eq_true, false_iff]
      intro ⟨d, hmem, hr, ha, _⟩
      have := List.find?_eq_none.mp hfind d hmem
      simp [hr, ha] at this
  | some d =>
      have hd := List.find?_some hfind
      simp only [Bool.and_eq_true, beq_iff_eq] at hd
      have hmem := List.mem_of_find?_eq_some hfind
      constructor
      · intro hage
        exact ⟨d, hmem, hd.1, hd.2, by simpa using hage⟩
      · intro ⟨d', hmem', hr', ha', hage'⟩
        have heq : d' = d := by
          by_cases hdd : d' = d
          · exact hdd
          · exfalso
            have hforall := List.Pairwise.forall
              (by intro x y hxy hc; exact hxy ⟨hc.1.symm, hc.2.symm⟩) huniq
            exact hforall hmem' hmem hdd ⟨by rw [hr', hd.1], by rw [ha', hd.2]⟩
        subst heq
        simpa using hage'

/-- Claim C4: `HasRun` is true exactly when the entry is present and
strictly younger than the TTL; a present-but-stale entry is reported
absent; and `Evict`'s TTL sweep removes every file older than the TTL. -/
theorem C4_ttl_freshness :
    (∀ (dirs : List DirEntry) (now ttl runID attempt : Int),
        dirs.Pairwise (fun a b => ¬(a.runID = b.runID ∧ a.attempt = b.attempt)) →
        (hasRun dirs now ttl runID attempt = true ↔
          ∃ d ∈ dirs, d.runID = runID ∧ d.attempt = attempt ∧ now - d.modTime < ttl)) ∧
    (∀ (dirs : List DirEntry) (now ttl runID attempt : Int) (d : DirEntry),
        dirs.Pairwise (fun a b => ¬(a.runID = b.runID ∧ a.attempt = b.attempt)) →
        d ∈ dirs → d.runID = runID → d.attempt = attempt → now - d.modTime > ttl →
        hasRun dirs now ttl runID attempt = false) ∧
    (∀ (now ttl maxSize : Int) (entries : List FileEntry) (e : FileEntry),
        e ∈ entries → now - e.modTime > ttl →
        e ∉ (evict now ttl maxSize entries).1) := by
  refine ⟨?_, ?_, ?_⟩
  · intro dirs now ttl runID attempt huniq
    exact hasRun_iff dirs now ttl runID attempt huniq
  · intro dirs now ttl runID attempt d huniq hmem hr ha hstale
    by_contra hcon
    have htrue : hasRun dirs now ttl runID attempt = true := by
      cases h : hasRun dirs now ttl runID attempt with
      | true => rfl
      | false => exact absurd h hcon
    obtain ⟨d', hmem', hr', ha', hage'⟩ :=
      (hasRun_iff dirs now ttl runID attempt huniq).mp htrue
    have heq : d' = d := by
      by_cases hdd : d' = d
      · exact hdd
      · exfalso
        have hforall := List.Pairwise.forall
          (by intro x y hxy hc; exact hxy ⟨hc.1.symm, hc.2.symm⟩) huniq
        exact hforall hmem' hmem hdd ⟨by rw [hr', hr], by rw [ha', ha]⟩
    subst heq
    omega
  · intro now ttl maxSize entries e hmem hstale hcon
    have := evict_remaining_subset now ttl maxSize entries e hcon
    rw [mem_ttlRemaining_iff] at this
    exact this.2 hstale

theorem C4_ttl_freshness_witness :
    hasRun [⟨5, 1, 0⟩] 100 60 5 1 = false :=
  C4_ttl_freshness.2.1 [⟨5, 1, 0⟩] 100 60 5 1 ⟨5, 1, 0⟩
    (by decide) (by decide) (by decide) (by decide) (by decide)

/-! ## Lemmas: session controller -/

/-- Claim C6: a job-tail status result whose job ID differs from the
current tailing target leaves the whole controller state unchanged and
schedules nothing — stale poll results are silently dropped. -/
theorem C6_stale_tail_dropped :
    ∀ (s : AppState) (jobID : Int) (jobName : String) (job : Option Job)
      (completed : Bool) (err : Option Nat),
      s.tailingJobID ≠ jobID →
      update s (Msg.jobTailStatus jobID jobName job completed err) = (s, []) := by
  intro s jobID jobName job completed err hne
  unfold update
  by_cases hc : s.confirmDialog.active
  · simp [hc, confirmRoute]
  · by_cases hf : s.filterOverlay.active
    · simp [hc, hf, filterRoute]
    · by_cases hs : s.searchView.active
      · simp [hc, hf, hs, searchRoute]
      · simp [hc, hf, hs, handleJobTailStatus, hne]

theorem C6_stale_tail_dropped_witness :
    update { initApp with tailingJobID := 5 } (Msg.jobTailStatus 6 "x" none false none) =
      ({ initApp with tailingJobID := 5 }, []) :=
  C6_stale_tail_dropped { initApp with tailingJobID := 5 } 6 "x" none false none
    (by decide)

theorem propagateKey_enter_fields (s : AppState) :
    (propagateKey s "enter").1.viewingAttempt = s.viewingAttempt ∧
    (propagateKey s "enter").1.autoRefreshRunID = s.autoRefreshRunID := by
  unfold propagateKey
  cases hcv : s.currentView
  case workflows => exact ⟨rfl, rfl⟩
  case metrics => exact ⟨rfl, rfl⟩
  case cacheTab => exact ⟨rfl, rfl⟩
  case runners => exact ⟨rfl, rfl⟩
  case runs =>
    simp only []
    by_cases hl : s.logFullScreen
    · rw [if_pos hl, if_neg (by simp)]
      exact ⟨rfl, rfl⟩
    · rw [if_neg hl]
      by_cases hi : s.infoFullScreen
      · rw [if_pos hi, if_neg (by simp)]
        exact ⟨rfl, rfl⟩
      · rw [if_neg hi]
        cases hfp : s.focusedPane <;>
          simp only [] <;>
          rw [if_neg (by simp)] <;>
          exact ⟨rfl, rfl⟩

/-- Claim C8: selecting a run (Runs view, Left pane, Enter, default
routing) resets the attempt cursor to 0, dispatches both the job fetch
and the merged log fetch unconditionally, and sets the auto-refresh
target to the run exactly when it is not completed. -/
theorem C8_select_run :
    ∀ (s : AppState) (run : Run),
      s.confirmDialog.active = false →
      s.filterOverlay.active = false →
      s.searchView.active = false →
      s.showHelp = false →
      s.runsView.filtering = false →
      s.logView.searching = false →
      s.currentView = View.runs →
      s.focusedPane = Pane.left →
      s.runsView.selectedRun = some run →
      (update s (Msg.key "enter")).1.viewingAttempt = 0 ∧
      Cmd.fetchJobs run.id ∈ (update s (Msg.key "enter")).2 ∧
      Cmd.fetchLogsMerged run.id ∈ (update s (Msg.key "enter")).2 ∧
      (update s (Msg.key "enter")).1.autoRefreshRunID =
        (if run.status = RunStatus.completed then 0 else run.id) := by
  intro s run hc hf hs hh hrf hls hv hp hsel
  have he : enterKey s =
      ({ s with
          viewingAttempt := 0
          detailsView := s.detailsView.setRun run
          focusedPane := Pane.middle
          status := "Loading jobs..."
          autoRefreshRunID := if run.status = RunStatus.completed then 0 else run.id },
       [Cmd.fetchJobs run.id, Cmd.fetchLogsMerged run.id]) := by
    unfold enterKey
    rw [if_pos ⟨hv, hp⟩, if_pos (by simp [hrf]), hsel]
  have hupd : update s (Msg.key "enter") =
      ((propagateKey (enterKey s).1 "enter").1,
       (enterKey s).2 ++ (propagateKey (enterKey s).1 "enter").2) := by
    unfold update
    simp only [hc, hf, hs, Bool.false_eq_true, if_false]
    rw [if_neg (by simp [hls])]
    rw [if_neg (by simp [isListFiltering, hv, hrf])]
    unfold handleKey
    rw [if_neg (by simp [hh])]
    rw [if_neg (by simp), if_neg (by simp)]
    unfold keySwitch
    simp
  rw [hupd, he]
  have hprop := propagateKey_enter_fields
    { s with
        viewingAttempt := 0
        detailsView := s.detailsView.setRun run
        focusedPane := Pane.middle
        status := "Loading jobs..."
        autoRefreshRunID := if run.status = RunStatus.completed then 0 else run.id }
  refine ⟨by simpa using hprop.1, ?_, ?_, by simpa using hprop.2⟩
  · exact List.mem_append_left _ (by simp)
  · exact List.mem_append_left _ (by simp)

theorem C8_select_run_witness :
    (update { initApp with
        runsView := { RunsView.new with items := [⟨9, 1, 1, RunStatus.inProgress⟩] } }
      (Msg.key "enter")).1.autoRefreshRunID = 9 := by
  have h := C8_select_run
    { initApp with
        runsView := { RunsView.new with items := [⟨9, 1, 1, RunStatus.inProgress⟩] } }
    ⟨9, 1, 1, RunStatus.inProgress⟩
    rfl rfl rfl rfl rfl rfl rfl rfl (by decide)
  simpa using h.2.2.2

/-- Claim C9 counterexample: for a run whose maximum attempt number is 1,
the attempt-cycle key is a no-op (the handler requires `RunAttempt > 1`),
so `viewingAttempt` does not advance to `(0 + 1) % (1 + 1) = 1` as the
claim asserts for every `maxAttempt ≥ 1`. -/
theorem C9_attempt_cycle_counterexample :
    (update { initApp with
        focusedPane := Pane.middle
        detailsView := { DetailsView.new with run := some ⟨3, 1, 1, RunStatus.completed⟩ } }
      (Msg.key "a")).1.viewingAttempt ≠ (0 + 1) % (1 + 1) := by
  decide

theorem propagateKey_a_fields (s : AppState) :
    (propagateKey s "a").1.viewingAttempt = s.viewingAttempt ∧
    (propagateKey s "a").2 = [] := by
  unfold propagateKey
  cases hcv : s.currentView
  case workflows => exact ⟨rfl, rfl⟩
  case metrics => exact ⟨rfl, rfl⟩
  case cacheTab => exact ⟨rfl, rfl⟩
  case runners => exact ⟨rfl, rfl⟩
  case runs =>
    simp only []
    by_cases hl : s.logFullScreen
    · rw [if_pos hl, if_neg (by simp)]
      exact ⟨rfl, rfl⟩
    · rw [if_neg hl]
      by_cases hi : s.infoFullScreen
      · rw [if_pos hi, if_neg (by simp)]
        exact ⟨rfl, rfl⟩
      · rw [if_neg hi]
        cases hfp : s.focusedPane
        · simp only [RunsView.updateKey]
          by_cases hrf : s.runsView.filtering
          · simp [hrf]
          · simp [hrf]
        · simp only []
          rw [if_neg (by simp)]
          exact ⟨rfl, rfl⟩
        · simp only []
          rw [if_neg (by simp)]
          exact ⟨rfl, rfl⟩

/-- Claim C9 (amended): for every multi-attempt run (`maxAttempt ≥ 2`),
the attempt-cycle key advances `viewingAttempt` to
`(viewingAttempt + 1) % (maxAttempt + 1)` and re-dispatches the fetches
scoped to the new value — while viewing a job log only the log fetch
(merged when the new value is 0, single-attempt otherwise), and in the
jobs pane both the job and the log fetch; for `maxAttempt = 1` the key
is a no-op. -/
theorem C9_attempt_cycle :
    ∀ (s : AppState) (run : Run),
      s.confirmDialog.active = false →
      s.filterOverlay.active = false →
      s.searchView.active = false →
      s.showHelp = false →
      s.logView.searching = false →
      s.runsView.filtering = false →
      s.currentView = View.runs →
      s.detailsView.run = some run →
      2 ≤ run.runAttempt →
      s.viewingAttempt ≤ run.runAttempt →
      ((s.logFullScreen = true → s.infoFullScreen = false → s.viewingJob ≠ none →
        (update s (Msg.key "a")).1.viewingAttempt =
          (s.viewingAttempt + 1) % (run.runAttempt + 1) ∧
        (update s (Msg.key "a")).2 =
          (if (s.viewingAttempt + 1) % (run.runAttempt + 1) = 0
           then [Cmd.fetchLogsMerged run.id]
           else [Cmd.fetchLogsAttempt run.id
             ((s.viewingAttempt + 1) % (run.runAttempt + 1))])) ∧
       (s.logFullScreen = false → s.infoFullScreen = false →
        s.focusedPane = Pane.middle →
        (update s (Msg.key "a")).1.viewingAttempt =
          (s.viewingAttempt + 1) % (run.runAttempt + 1) ∧
        (update s (Msg.key "a")).2 =
          (if (s.viewingAttempt + 1) % (run.runAttempt + 1) = 0
           then [Cmd.fetchJobs run.id, Cmd.fetchLogsMerged run.id]
           else [Cmd.fetchJobsForAttempt run.id
               ((s.viewingAttempt + 1) % (run.runAttempt + 1)),
             Cmd.fetchLogsAttempt run.id
               ((s.viewingAttempt + 1) % (run.runAttempt + 1))]))) := by
  intro s run hc hf hs hh hls hrf hv hrun hma hva
  have hupd : update s (Msg.key "a") =
      ((propagateKey (attemptKey s).1 "a").1,
       (attemptKey s).2 ++ (propagateKey (attemptKey s).1 "a").2) := by
    unfold update
    simp only [hc, hf, hs, Bool.false_eq_true, if_false]
    rw [if_neg (by simp [hls])]
    rw [if_neg (by simp [isListFiltering, hv, hrf])]
    unfold handleKey
    rw [if_neg (by simp [hh])]
    rw [if_neg (by simp), if_neg (by simp)]
    unfold keySwitch
    simp
  have hmod : (if s.viewingAttempt + 1 > run.runAttempt then 0 else s.viewingAttempt + 1) =
      (s.viewingAttempt + 1) % (run.runAttempt + 1) := by
    by_cases h : s.viewingAttempt + 1 > run.runAttempt
    · have heq : s.viewingAttempt = run.runAttempt := by omega
      simp [h, heq]
    · rw [if_neg h, Nat.mod_eq_of_lt (by omega)]
  constructor
  · intro hl hi hvj
    have hak : attemptKey s =
        ({ s with
            viewingAttempt := (s.viewingAttempt + 1) % (run.runAttempt + 1)
            detailsView := s.detailsView.setAttempt
              ((s.viewingAttempt + 1) % (run.runAttempt + 1)) run.runAttempt
            status := if (s.viewingAttempt + 1) % (run.runAttempt + 1) = 0
              then "Loading latest (merged) logs..." else "Loading attempt logs..." },
         if (s.viewingAttempt + 1) % (run.runAttempt + 1) = 0
           then [Cmd.fetchLogsMerged run.id]
           else [Cmd.fetchLogsAttempt run.id
             ((s.viewingAttempt + 1) % (run.runAttempt + 1))]) := by
      unfold attemptKey
      rw [if_pos (by refine ⟨hv, ?_, ?_⟩ <;> simp [hl, hi])]
      rw [hrun]
      simp only []
      rw [if_pos ⟨by omega, hvj⟩]
      rw [hmod]
      by_cases h0 : (s.viewingAttempt + 1) % (run.runAttempt + 1) = 0
      · simp [h0]
      · simp [h0]
    have hprop := propagateKey_a_fields
      { s with
          viewingAttempt := (s.viewingAttempt + 1) % (run.runAttempt + 1)
          detailsView := s.detailsView.setAttempt
            ((s.viewingAttempt + 1) % (run.runAttempt + 1)) run.runAttempt
          status := if (s.viewingAttempt + 1) % (run.runAttempt + 1) = 0
            then "Loading latest (merged) logs..." else "Loading attempt logs..." }
    rw [hupd, hak]
    constructor
    · simp [hprop.1]
    · simp [hprop.2]
  · intro hl hi hfp
    have hak : attemptKey s =
        ({ s with
            viewingAttempt := (s.viewingAttempt + 1) % (run.runAttempt + 1)
            detailsView := s.detailsView.setAttempt
              ((s.viewingAttempt + 1) % (run.runAttempt + 1)) run.runAttempt
            status := if (s.viewingAttempt + 1) % (run.runAttempt + 1) = 0
              then "Loading latest (merged) jobs..." else "Loading attempt..." },
         if (s.viewingAttempt + 1) % (run.runAttempt + 1) = 0
           then [Cmd.fetchJobs run.id, Cmd.fetchLogsMerged run.id]
           else [Cmd.fetchJobsForAttempt run.id
               ((s.viewingAttempt + 1) % (run.runAttempt + 1)),
             Cmd.fetchLogsAttempt run.id
               ((s.viewingAttempt + 1) % (run.runAttempt + 1))]) := by
      unfold attemptKey
      rw [if_neg (by simp [hl])]
      rw [if_pos (by refine ⟨hv, hfp, ?_, ?_⟩ <;> simp [hl, hi])]
      rw [hrun]
      simp only []
      rw [if_pos (by omega)]
      rw [hmod]
      by_cases h0 : (s.viewingAttempt + 1) % (run.runAttempt + 1) = 0
      · simp [h0]
      · simp [h0]
    have hprop := propagateKey_a_fields
      { s with
          viewingAttempt := (s.viewingAttempt + 1) % (run.runAttempt + 1)
          detailsView := s.detailsView.setAttempt
            ((s.viewingAttempt + 1) % (run.runAttempt + 1)) run.runAttempt
          status := if (s.viewingAttempt + 1) % (run.runAttempt + 1) = 0
            then "Loading latest (merged) jobs..." else "Loading attempt..." }
    rw [hupd, hak]
    constructor
    · simp [hprop.1]
    · simp [hprop.2]

theorem C9_attempt_cycle_witness :
    (update { initApp with
        focusedPane := Pane.middle
        detailsView := { DetailsView.new with run := some ⟨4, 1, 3, RunStatus.completed⟩ } }
      (Msg.key "a")).1.viewingAttempt = 1 ∧
    (update { initApp with
        focusedPane := Pane.middle
        detailsView := { DetailsView.new with run := some ⟨4, 1, 3, RunStatus.completed⟩ } }
      (Msg.key "a")).2 = [Cmd.fetchJobsForAttempt 4 1, Cmd.fetchLogsAttempt 4 1] := by
  have h := (C9_attempt_cycle
    { initApp with
        focusedPane := Pane.middle
        detailsView := { DetailsView.new with run := some ⟨4, 1, 3, RunStatus.completed⟩ } }
    ⟨4, 1, 3, RunStatus.completed⟩
    rfl rfl rfl rfl rfl rfl rfl (by decide) (by decide) (by decide)).2 rfl rfl rfl
  exact ⟨by simpa using h.1, by simpa using h.2⟩

theorem confirmRoute_overlays (s : AppState) (msg : Msg) :
    (confirmRoute s msg).1.filterOverlay.active = s.filterOverlay.active ∧
    (confirmRoute s msg).1.searchView.active = s.searchView.active ∧
    ((confirmRoute s msg).1.confirmDialog.active = true →
      s.confirmDialog.active = true) := by
  unfold confirmRoute
  cases msg
  case key k =>
    repeat' split
    all_goals simp_all
  all_goals simp

theorem FilterOverlay.moveFocusFwd_active (m : FilterOverlay) :
    m.moveFocusFwd.active = m.active := rfl

theorem FilterOverlay.moveFocusBwd_active (m : FilterOverlay) :
    m.moveFocusBwd.active = m.active := rfl

theorem FilterOverlay.blurText_active (m : FilterOverlay) :
    m.blurText.active = m.active := rfl

theorem FilterOverlay.focusCurrentText_active (m : FilterOverlay) :
    m.focusCurrentText.active = m.active := by
  unfold FilterOverlay.focusCurrentText
  repeat' split
  all_goals rfl

theorem filterOverlayUpdateKey_active (m : FilterOverlay) (k : String) :
    (m.updateKey k).active = true → m.active = true := by
  unfold FilterOverlay.updateKey
  repeat' split
  all_goals
    simp_all [FilterOverlay.moveFocusFwd_active, FilterOverlay.moveFocusBwd_active,
      FilterOverlay.blurText_active, FilterOverlay.focusCurrentText_active]

theorem searchViewUpdateKey_active (m : SearchView) (k : String) :
    (m.updateKey k).active = true → m.active = true := by
  unfold SearchView.updateKey
  repeat' split
  all_goals simp_all

theorem filterRoute_overlays (s : AppState) (msg : Msg) :
    (filterRoute s msg).1.confirmDialog.active = s.confirmDialog.active ∧
    (filterRoute s msg).1.searchView.active = s.searchView.active ∧
    ((filterRoute s msg).1.filterOverlay.active = true →
      s.filterOverlay.active = true) := by
  cases msg
  case key k =>
    exact ⟨rfl, rfl, fun h => filterOverlayUpdateKey_active s.filterOverlay k h⟩
  all_goals exact ⟨rfl, rfl, fun h => h⟩

theorem searchRoute_overlays (s : AppState) (msg : Msg) :
    (searchRoute s msg).1.confirmDialog.active = s.confirmDialog.active ∧
    (searchRoute s msg).1.filterOverlay.active = s.filterOverlay.active ∧
    ((searchRoute s msg).1.searchView.active = true →
      s.searchView.active = true) := by
  cases msg
  case key k =>
    unfold searchRoute
    simp only []
    refine ⟨?_, ?_, ?_⟩
    · repeat' split
      all_goals rfl
    · repeat' split
      all_goals rfl
    · repeat' split
      all_goals
        intro h
        first
          | exact searchViewUpdateKey_active s.searchView k h
          | simp at h
  all_goals exact ⟨rfl, rfl, fun h => h⟩

theorem tabSwitchKey_confirm (s : AppState) (k : String) :
    (tabSwitchKey s k).1.confirmDialog.active = s.confirmDialog.active := by
  unfold tabSwitchKey
  dsimp only
  repeat' split
  all_goals rfl

theorem tabSwitchKey_filter (s : AppState) (k : String) :
    (tabSwitchKey s k).1.filterOverlay.active = s.filterOverlay.active := by
  unfold tabSwitchKey
  dsimp only
  repeat' split
  all_goals rfl

theorem tabSwitchKey_search (s : AppState) (k : String) :
    (tabSwitchKey s k).1.searchView.active = s.searchView.active := by
  unfold tabSwitchKey
  dsimp only
  repeat' split
  all_goals rfl

theorem enterKey_confirm (s : AppState) :
    (enterKey s).1.confirmDialog.active = s.confirmDialog.active := by
  unfold enterKey
  dsimp only
  repeat' split
  all_goals rfl

theorem enterKey_filter (s : AppState) :
    (enterKey s).1.filterOverlay.active = s.filterOverlay.active := by
  unfold enterKey
  dsimp only
  repeat' split
  all_goals rfl

theorem enterKey_search (s : AppState) :
    (enterKey s).1.searchView.active = s.searchView.active := by
  unfold enterKey
  dsimp only
  repeat' split
  all_goals rfl

theorem attemptKey_confirm (s : AppState) :
    (attemptKey s).1.confirmDialog.active = s.confirmDialog.active := by
  unfold attemptKey
  dsimp only
  repeat' split
  all_goals rfl

theorem attemptKey_filter (s : AppState) :
    (attemptKey s).1.filterOverlay.active = s.filterOverlay.active := by
  unfold attemptKey
  dsimp only
  repeat' split
  all_goals rfl

theorem attemptKey_search (s : AppState) :
    (attemptKey s).1.searchView.active = s.searchView.active := by
  unfold attemptKey
  dsimp only
  repeat' split
  all_goals rfl

theorem infoKey_confirm (s : AppState) :
    (infoKey s).1.confirmDialog.active = s.confirmDialog.active := by
  unfold infoKey
  dsimp only
  repeat' split
  all_goals rfl

theorem infoKey_filter (s : AppState) :
    (infoKey s).1.filterOverlay.active = s.filterOverlay.active := by
  unfold infoKey
  dsimp only
  repeat' split
  all_goals rfl

theorem infoKey_search (s : AppState) :
    (infoKey s).1.searchView.active = s.searchView.active := by
  unfold infoKey
  dsimp only
  repeat' split
  all_goals rfl

theorem exclusive_cf (t : AppState)
    (h1 : t.confirmDialog.active = false) (h2 : t.filterOverlay.active = false) :
    inputOverlaysExclusive t := by
  unfold inputOverlaysExclusive
  rw [h1, h2]
  by_cases h : t.searchView.active <;> simp [h]

theorem exclusive_cs (t : AppState)
    (h1 : t.confirmDialog.active = false) (h2 : t.searchView.active = false) :
    inputOverlaysExclusive t := by
  unfold inputOverlaysExclusive
  rw [h1, h2]
  by_cases h : t.filterOverlay.active <;> simp [h]

theorem exclusive_fs (t : AppState)
    (h1 : t.filterOverlay.active = false) (h2 : t.searchView.active = false) :
    inputOverlaysExclusive t := by
  unfold inputOverlaysExclusive
  rw [h1, h2]
  by_cases h : t.confirmDialog.active <;> simp [h]

set_option maxHeartbeats 1600000 in
theorem keySwitch_overlays (s : AppState) (k : String)
    (hc : s.confirmDialog.active = false) (hf : s.filterOverlay.active = false)
    (hs : s.searchView.active = false) :
    inputOverlaysExclusive (keySwitch s k).1 := by
  unfold keySwitch
  by_cases h1 : k = "tab"
  · rw [if_pos h1]
    repeat' split
    all_goals
      first
        | exact exclusive_cf _ hc hf
        | exact exclusive_cs _ hc hs
        | exact exclusive_fs _ hf hs
        | exact exclusive_cf _ (by rw [tabSwitchKey_confirm]; exact hc)
            (by rw [tabSwitchKey_filter]; exact hf)
        | exact exclusive_cf _ (by rw [enterKey_confirm]; exact hc)
            (by rw [enterKey_filter]; exact hf)
        | exact exclusive_cf _ (by rw [attemptKey_confirm]; exact hc)
            (by rw [attemptKey_filter]; exact hf)
        | exact exclusive_cf _ (by rw [infoKey_confirm]; exact hc)
            (by rw [infoKey_filter]; exact hf)
  rw [if_neg h1]
  by_cases h2 : k = "shift+tab"
  · rw [if_pos h2]
    repeat' split
    all_goals
      first
        | exact exclusive_cf _ hc hf
        | exact exclusive_cs _ hc hs
        | exact exclusive_fs _ hf hs
        | exact exclusive_cf _ (by rw [tabSwitchKey_confirm]; exact hc)
            (by rw [tabSwitchKey_filter]; exact hf)
        | exact exclusive_cf _ (by rw [enterKey_confirm]; exact hc)
            (by rw [enterKey_filter]; exact hf)
        | exact exclusive_cf _ (by rw [attemptKey_confirm]; exact hc)
            (by rw [attemptKey_filter]; exact hf)
        | exact exclusive_cf _ (by rw [infoKey_confirm]; exact hc)
            (by rw [infoKey_filter]; exact hf)
  rw [if_neg h2]
  by_cases h3 : k = "1" ∨ k = "2" ∨ k = "3" ∨ k = "4" ∨ k = "5"
  · rw [if_pos h3]
    repeat' split
    all_goals
      first
        | exact exclusive_cf _ hc hf
        | exact exclusive_cs _ hc hs
        | exact exclusive_fs _ hf hs
        | exact exclusive_cf _ (by rw [tabSwitchKey_confirm]; exact hc)
            (by rw [tabSwitchKey_filter]; exact hf)
        | exact exclusive_cf _ (by rw [enterKey_confirm]; exact hc)
            (by rw [enterKey_filter]; exact hf)
        | exact exclusive_cf _ (by rw [attemptKey_confirm]; exact hc)
            (by rw [attemptKey_filter]; exact hf)
        | exact exclusive_cf _ (by rw [infoKey_confirm]; exact hc)
            (by rw [infoKey_filter]; exact hf)
  rw [if_neg h3]
  by_cases h4 : k = "S"
  · rw [if_pos h4]
    repeat' split
    all_goals
      first
        | exact exclusive_cf _ hc hf
        | exact exclusive_cs _ hc hs
        | exact exclusive_fs _ hf hs
        | exact exclusive_cf _ (by rw [tabSwitchKey_confirm]; exact hc)
            (by rw [tabSwitchKey_filter]; exact hf)
        | exact exclusive_cf _ (by rw [enterKey_confirm]; exact hc)
            (by rw [enterKey_filter]; exact hf)
        | exact exclusive_cf _ (by rw [attemptKey_confirm]; exact hc)
            (by rw [attemptKey_filter]; exact hf)
        | exact exclusive_cf _ (by rw [infoKey_confirm]; exact hc)
            (by rw [infoKey_filter]; exact hf)
  rw [if_neg h4]
  by_cases h5 : k = "/"
  · rw [if_pos h5]
    repeat' split
    all_goals
      first
        | exact exclusive_cf _ hc hf
        | exact exclusive_cs _ hc hs
        | exact exclusive_fs _ hf hs
        | exact exclusive_cf _ (by rw [tabSwitchKey_confirm]; exact hc)
            (by rw [tabSwitchKey_filter]; exact hf)
        | exact exclusive_cf _ (by rw [enterKey_confirm]; exact hc)
            (by rw [enterKey_filter]; exact hf)
        | exact exclusive_cf _ (by rw [attemptKey_confirm]; exact hc)
            (by rw [attemptKey_filter]; exact hf)
        | exact exclusive_cf _ (by rw [infoKey_confirm]; exact hc)
            (by rw [infoKey_filter]; exact hf)
  rw [if_neg h5]
  by_cases h6 : k = "enter"
  · rw [if_pos h6]
    repeat' split
    all_goals
      first
        | exact exclusive_cf _ hc hf
        | exact exclusive_cs _ hc hs
        | exact exclusive_fs _ hf hs
        | exact exclusive_cf _ (by rw [tabSwitchKey_confirm]; exact hc)
            (by rw [tabSwitchKey_filter]; exact hf)
        | exact exclusive_cf _ (by rw [enterKey_confirm]; exact hc)
            (by rw [enterKey_filter]; exact hf)
        | exact exclusive_cf _ (by rw [attemptKey_confirm]; exact hc)
            (by rw [attemptKey_filter]; exact hf)
        | exact exclusive_cf _ (by rw [infoKey_confirm]; exact hc)
            (by rw [infoKey_filter]; exact hf)
  rw [if_neg h6]
  by_cases h7 : k = "right" ∨ k = "l"
  · rw [if_pos h7]
    repeat' split
    all_goals
      first
        | exact exclusive_cf _ hc hf
        | exact exclusive_cs _ hc hs
        | exact exclusive_fs _ hf hs
        | exact exclusive_cf _ (by rw [tabSwitchKey_confirm]; exact hc)
            (by rw [tabSwitchKey_filter]; exact hf)
        | exact exclusive_cf _ (by rw [enterKey_confirm]; exact hc)
            (by rw [enterKey_filter]; exact hf)
        | exact exclusive_cf _ (by rw [attemptKey_confirm]; exact hc)
            (by rw [attemptKey_filter]; exact hf)
        | exact exclusive_cf _ (by rw [infoKey_confirm]; exact hc)
            (by rw [infoKey_filter]; exact hf)
  rw [if_neg h7]
  by_cases h8 : k = "left" ∨ k = "h"
  · rw [if_pos h8]
    repeat' split
    all_goals
      first
        | exact exclusive_cf _ hc hf
        | exact exclusive_cs _ hc hs
        | exact exclusive_fs _ hf hs
        | exact exclusive_cf _ (by rw [tabSwitchKey_confirm]; exact hc)
            (by rw [tabSwitchKey_filter]; exact hf)
        | exact exclusive_cf _ (by rw [enterKey_confirm]; exact hc)
            (by rw [enterKey_filter]; exact hf)
        | exact exclusive_cf _ (by rw [attemptKey_confirm]; exact hc)
            (by rw [attemptKey_filter]; exact hf)
        | exact exclusive_cf _ (by rw [infoKey_confirm]; exact hc)
            (by rw [infoKey_filter]; exact hf)
  rw [if_neg h8]
  by_cases h9 : k = "r"
  · rw [if_pos h9]
    repeat' split
    all_goals
      first
        | exact exclusive_cf _ hc hf
        | exact exclusive_cs _ hc hs
        | exact exclusive_fs _ hf hs
        | exact exclusive_cf _ (by rw [tabSwitchKey_confirm]; exact hc)
            (by rw [tabSwitchKey_filter]; exact hf)
        | exact exclusive_cf _ (by rw [enterKey_confirm]; exact hc)
            (by rw [enterKey_filter]; exact hf)
        | exact exclusive_cf _ (by rw [attemptKey_confirm]; exact hc)
            (by rw [attemptKey_filter]; exact hf)
        | exact exclusive_cf _ (by rw [infoKey_confirm]; exact hc)
            (by rw [infoKey_filter]; exact hf)
  rw [if_neg h9]
  by_cases h10 : k = "R"
  · rw [if_pos h10]
    repeat' split
    all_goals
      first
        | exact exclusive_cf _ hc hf
        | exact exclusive_cs _ hc hs
        | exact exclusive_fs _ hf hs
        | exact exclusive_cf _ (by rw [tabSwitchKey_confirm]; exact hc)
            (by rw [tabSwitchKey_filter]; exact hf)
        | exact exclusive_cf _ (by rw [enterKey_confirm]; exact hc)
            (by rw [enterKey_filter]; exact hf)
        | exact exclusive_cf _ (by rw [attemptKey_confirm]; exact hc)
            (by rw [attemptKey_filter]; exact hf)
        | exact exclusive_cf _ (by rw [infoKey_confirm]; exact hc)
            (by rw [infoKey_filter]; exact hf)
  rw [if_neg h10]
  by_cases h11 : k = "F"
  · rw [if_pos h11]
    repeat' split
    all_goals
      first
        | exact exclusive_cf _ hc hf
        | exact exclusive_cs _ hc hs
        | exact exclusive_fs _ hf hs
        | exact exclusive_cf _ (by rw [tabSwitchKey_confirm]; exact hc)
            (by rw [tabSwitchKey_filter]; exact hf)
        | exact exclusive_cf _ (by rw [enterKey_confirm]; exact hc)
            (by rw [enterKey_filter]; exact hf)
        | exact exclusive_cf _ (by rw [attemptKey_confirm]; exact hc)
            (by rw [attemptKey_filter]; exact hf)
        | exact exclusive_cf _ (by rw [infoKey_confirm]; exact hc)
            (by rw [infoKey_filter]; exact hf)
  rw [if_neg h11]
  by_cases h12 : k = "d"
  · rw [if_pos h12]
    repeat' split
    all_goals
      first
        | exact exclusive_cf _ hc hf
        | exact exclusive_cs _ hc hs
        | exact exclusive_fs _ hf hs
        | exact exclusive_cf _ (by rw [tabSwitchKey_confirm]; exact hc)
            (by rw [tabSwitchKey_filter]; exact hf)
        | exact exclusive_cf _ (by rw [enterKey_confirm]; exact hc)
            (by rw [enterKey_filter]; exact hf)
        | exact exclusive_cf _ (by rw [attemptKey_confirm]; exact hc)
            (by rw [attemptKey_filter]; exact hf)
        | exact exclusive_cf _ (by rw [infoKey_confirm]; exact hc)
            (by rw [infoKey_filter]; exact hf)
  rw [if_neg h12]
  by_cases h13 : k = "C"
  · rw [if_pos h13]
    repeat' split
    all_goals
      first
        | exact exclusive_cf _ hc hf
        | exact exclusive_cs _ hc hs
        | exact exclusive_fs _ hf hs
        | exact exclusive_cf _ (by rw [tabSwitchKey_confirm]; exact hc)
            (by rw [tabSwitchKey_filter]; exact hf)
        | exact exclusive_cf _ (by rw [enterKey_confirm]; exact hc)
            (by rw [enterKey_filter]; exact hf)
        | exact exclusive_cf _ (by rw [attemptKey_confirm]; exact hc)
            (by rw [attemptKey_filter]; exact hf)
        | exact exclusive_cf _ (by rw [infoKey_confirm]; exact hc)
            (by rw [infoKey_filter]; exact hf)
  rw [if_neg h13]
  by_cases h14 : k = "X"
  · rw [if_pos h14]
    repeat' split
    all_goals
      first
        | exact exclusive_cf _ hc hf
        | exact exclusive_cs _ hc hs
        | exact exclusive_fs _ hf hs
        | exact exclusive_cf _ (by rw [tabSwitchKey_confirm]; exact hc)
            (by rw [tabSwitchKey_filter]; exact hf)
        | exact exclusive_cf _ (by rw [enterKey_confirm]; exact hc)
            (by rw [enterKey_filter]; exact hf)
        | exact exclusive_cf _ (by rw [attemptKey_confirm]; exact hc)
            (by rw [attemptKey_filter]; exact hf)
        | exact exclusive_cf _ (by rw [infoKey_confirm]; exact hc)
            (by rw [infoKey_filter]; exact hf)
  rw [if_neg h14]
  by_cases h15 : k = "a"
  · rw [if_pos h15]
    repeat' split
    all_goals
      first
        | exact exclusive_cf _ hc hf
        | exact exclusive_cs _ hc hs
        | exact exclusive_fs _ hf hs
        | exact exclusive_cf _ (by rw [tabSwitchKey_confirm]; exact hc)
            (by rw [tabSwitchKey_filter]; exact hf)
        | exact exclusive_cf _ (by rw [enterKey_confirm]; exact hc)
            (by rw [enterKey_filter]; exact hf)
        | exact exclusive_cf _ (by rw [attemptKey_confirm]; exact hc)
            (by rw [attemptKey_filter]; exact hf)
        | exact exclusive_cf _ (by rw [infoKey_confirm]; exact hc)
            (by rw [infoKey_filter]; exact hf)
  rw [if_neg h15]
  by_cases h16 : k = "i"
  · rw [if_pos h16]
    repeat' split
    all_goals
      first
        | exact exclusive_cf _ hc hf
        | exact exclusive_cs _ hc hs
        | exact exclusive_fs _ hf hs
        | exact exclusive_cf _ (by rw [tabSwitchKey_confirm]; exact hc)
            (by rw [tabSwitchKey_filter]; exact hf)
        | exact exclusive_cf _ (by rw [enterKey_confirm]; exact hc)
            (by rw [enterKey_filter]; exact hf)
        | exact exclusive_cf _ (by rw [attemptKey_confirm]; exact hc)
            (by rw [attemptKey_filter]; exact hf)
        | exact exclusive_cf _ (by rw [infoKey_confirm]; exact hc)
            (by rw [infoKey_filter]; exact hf)
  rw [if_neg h16]
  by_cases h17 : k = "x"
  · rw [if_pos h17]
    repeat' split
    all_goals
      first
        | exact exclusive_cf _ hc hf
        | exact exclusive_cs _ hc hs
        | exact exclusive_fs _ hf hs
        | exact exclusive_cf _ (by rw [tabSwitchKey_confirm]; exact hc)
            (by rw [tabSwitchKey_filter]; exact hf)
        | exact exclusive_cf _ (by rw [enterKey_confirm]; exact hc)
            (by rw [enterKey_filter]; exact hf)
        | exact exclusive_cf _ (by rw [attemptKey_confirm]; exact hc)
            (by rw [attemptKey_filter]; exact hf)
        | exact exclusive_cf _ (by rw [infoKey_confirm]; exact hc)
            (by rw [infoKey_filter]; exact hf)
  rw [if_neg h17]
  exact exclusive_cf _ hc hf

theorem propagateKey_cf (s : AppState) (k : String) :
    (propagateKey s k).1.confirmDialog.active = s.confirmDialog.active ∧
    (propagateKey s k).1.filterOverlay.active = s.filterOverlay.active := by
  unfold propagateKey
  cases hcv : s.currentView
  case runs =>
    dsimp only
    repeat' split
    all_goals exact ⟨rfl, rfl⟩
  all_goals exact ⟨rfl, rfl⟩

theorem propagateKey_search_frame (s : AppState) (k : String)
    (hk : ¬(k = "esc" ∨ k = "backspace" ∨ k = "delete")) :
    (propagateKey s k).1.searchView.active = s.searchView.active := by
  have hk1 : ¬(k = "esc") := fun h => hk (Or.inl h)
  have hk2 : ¬(k = "backspace") := fun h => hk (Or.inr (Or.inl h))
  have hk3 : ¬(k = "delete") := fun h => hk (Or.inr (Or.inr h))
  unfold propagateKey
  cases hcv : s.currentView
  case runs =>
    dsimp only
    by_cases hl : s.logFullScreen
    · rw [if_pos hl, if_neg (by simp [hk1, hk2, hk3])]
    · rw [if_neg hl]
      by_cases hi : s.infoFullScreen
      · rw [if_pos hi, if_neg (by simp [hk1, hk2, hk3])]
      · rw [if_neg hi]
        cases hfp : s.focusedPane
        · dsimp only
          rw [if_neg hk1]
        · dsimp only
          rw [if_neg hk1]
        · dsimp only
          rw [if_neg hk1]
  all_goals rfl

theorem handleRunsLoaded_cfs (s : AppState) (runs : List Run) (total : Nat)
    (err : Option Nat) :
    (handleRunsLoaded s runs total err).1.confirmDialog.active = s.confirmDialog.active ∧
    (handleRunsLoaded s runs total err).1.filterOverlay.active = s.filterOverlay.active ∧
    (handleRunsLoaded s runs total err).1.searchView.active = s.searchView.active := by
  unfold handleRunsLoaded
  cases err <;> exact ⟨rfl, rfl, rfl⟩

theorem handleJobsLoaded_cfs (s : AppState) (runID : Int) (jobs : List Job)
    (err : Option Nat) :
    (handleJobsLoaded s runID jobs err).1.confirmDialog.active = s.confirmDialog.active ∧
    (handleJobsLoaded s runID jobs err).1.filterOverlay.active = s.filterOverlay.active ∧
    (handleJobsLoaded s runID jobs err).1.searchView.active = s.searchView.active := by
  unfold handleJobsLoaded
  cases err <;>
    · dsimp only
      repeat' split
      all_goals exact ⟨rfl, rfl, rfl⟩

theorem handleJobTailStatus_cfs (s : AppState) (jobID : Int) (jobName : String)
    (job : Option Job) (completed : Bool) (err : Option Nat) :
    (handleJobTailStatus s jobID jobName job completed err).1.confirmDialog.active =
      s.confirmDialog.active ∧
    (handleJobTailStatus s jobID jobName job completed err).1.filterOverlay.active =
      s.filterOverlay.active ∧
    (handleJobTailStatus s jobID jobName job completed err).1.searchView.active =
      s.searchView.active := by
  unfold handleJobTailStatus
  repeat' split
  all_goals exact ⟨rfl, rfl, rfl⟩

theorem handleLogTailTick_cfs (s : AppState) (jobID : Int) (jobName : String) :
    (handleLogTailTick s jobID jobName).1.confirmDialog.active = s.confirmDialog.active ∧
    (handleLogTailTick s jobID jobName).1.filterOverlay.active = s.filterOverlay.active ∧
    (handleLogTailTick s jobID jobName).1.searchView.active = s.searchView.active := by
  unfold handleLogTailTick
  repeat' split
  all_goals exact ⟨rfl, rfl, rfl⟩

theorem handleKey_overlays (s : AppState) (k : String)
    (hc : s.confirmDialog.active = false) (hf : s.filterOverlay.active = false)
    (hs : s.searchView.active = false) :
    inputOverlaysExclusive (handleKey s k).1 := by
  unfold handleKey
  by_cases hh : s.showHelp
  · rw [if_pos hh]
    split
    · exact exclusive_cf _ hc hf
    · exact exclusive_cf _ hc hf
  · rw [if_neg hh]
    by_cases hq : k = "q" ∨ k = "ctrl+c"
    · rw [if_pos (by simpa using hq)]
      exact exclusive_cf _ hc hf
    · rw [if_neg (by simpa using hq)]
      by_cases hqm : k = "?"
      · rw [if_pos hqm]
        exact exclusive_cf _ hc hf
      · rw [if_neg hqm]
        show inputOverlaysExclusive (propagateKey (keySwitch s k).1 k).1
        by_cases hk : k = "esc" ∨ k = "backspace" ∨ k = "delete"
        · have hid : keySwitch s k = (s, []) := by
            rcases hk with h | h | h <;> subst h <;> rfl
          rw [hid]
          exact exclusive_cf _ ((propagateKey_cf s k).1.trans hc)
            ((propagateKey_cf s k).2.trans hf)
        · have hsearch := propagateKey_search_frame (keySwitch s k).1 k hk
          have hcf := propagateKey_cf (keySwitch s k).1 k
          have hks := keySwitch_overlays s k hc hf hs
          unfold inputOverlaysExclusive at hks ⊢
          rw [hcf.1, hcf.2, hsearch]
          exact hks

theorem update_overlays_step (s : AppState) (msg : Msg)
    (h : inputOverlaysExclusive s) :
    inputOverlaysExclusive (update s msg).1 := by
  unfold update
  by_cases hc : s.confirmDialog.active
  · rw [if_pos hc]
    have hfil : s.filterOverlay.active = false := by
      unfold inputOverlaysExclusive at h
      rw [hc] at h
      by_cases h2 : s.filterOverlay.active
      · by_cases h3 : s.searchView.active <;> simp [h2, h3] at h
      · revert h2; cases s.filterOverlay.active <;> simp
    have hsea : s.searchView.active = false := by
      unfold inputOverlaysExclusive at h
      rw [hc] at h
      by_cases h3 : s.searchView.active
      · by_cases h2 : s.filterOverlay.active <;> simp [h2, h3] at h
      · revert h3; cases s.searchView.active <;> simp
    have hov := confirmRoute_overlays s msg
    exact exclusive_fs _ (hov.1.trans hfil) (hov.2.1.trans hsea)
  · have hc' : s.confirmDialog.active = false := by
      revert hc; cases s.confirmDialog.active <;> simp
    rw [if_neg hc]
    by_cases hf : s.filterOverlay.active
    · rw [if_pos hf]
      have hsea : s.searchView.active = false := by
        unfold inputOverlaysExclusive at h
        rw [hf] at h
        by_cases h3 : s.searchView.active
        · by_cases h1 : s.confirmDialog.active <;> simp [h1, h3] at h
        · revert h3; cases s.searchView.active <;> simp
      have hov := filterRoute_overlays s msg
      exact exclusive_cs _ (hov.1.trans hc') (hov.2.1.trans hsea)
    · have hf' : s.filterOverlay.active = false := by
        revert hf; cases s.filterOverlay.active <;> simp
      rw [if_neg hf]
      by_cases hsv : s.searchView.active
      · rw [if_pos hsv]
        have hov := searchRoute_overlays s msg
        exact exclusive_cf _ (hov.1.trans hc') (hov.2.1.trans hf')
      · have hs' : s.searchView.active = false := by
          revert hsv; cases s.searchView.active <;> simp
        rw [if_neg hsv]
        cases msg
        next k =>
          dsimp only
          by_cases hls : s.logFullScreen = true ∧ s.logView.searching = true
          · rw [if_pos hls]
            exact exclusive_cf _ hc' hf'
          · rw [if_neg hls]
            by_cases hlf : isListFiltering s
            · rw [if_pos hlf]
              cases hcv : s.currentView
              all_goals exact exclusive_cf _ hc' hf'
            · rw [if_neg hlf]
              exact handleKey_overlays s k hc' hf' hs'
        next runs total err =>
          have hov := handleRunsLoaded_cfs s runs total err
          exact exclusive_cf _ (hov.1.trans hc') (hov.2.1.trans hf')
        next runID jobs err =>
          have hov := handleJobsLoaded_cfs s runID jobs err
          exact exclusive_cf _ (hov.1.trans hc') (hov.2.1.trans hf')
        next jobID jobName job completed err =>
          have hov := handleJobTailStatus_cfs s jobID jobName job completed err
          exact exclusive_cf _ (hov.1.trans hc') (hov.2.1.trans hf')
        next jobID jobName =>
          have hov := handleLogTailTick_cfs s jobID jobName
          exact exclusive_cf _ (hov.1.trans hc') (hov.2.1.trans hf')

/-- Claim C7 counterexample: a state reachable from the initial state by
handled events (load one completed run, open its info overlay with `i`,
then press `/`) has both the info-fullscreen overlay and the search
overlay active at once, so the claimed mutual exclusion of all overlays
fails. -/
theorem C7_overlay_exclusivity_counterexample :
    Reachable (update (update (update initApp
        (Msg.runsLoaded [⟨7, 1, 1, RunStatus.completed⟩] 1 none)).1
        (Msg.key "i")).1 (Msg.key "/")).1 ∧
    (update (update (update initApp
        (Msg.runsLoaded [⟨7, 1, 1, RunStatus.completed⟩] 1 none)).1
        (Msg.key "i")).1 (Msg.key "/")).1.infoFullScreen = true ∧
    (update (update (update initApp
        (Msg.runsLoaded [⟨7, 1, 1, RunStatus.completed⟩] 1 none)).1
        (Msg.key "i")).1 (Msg.key "/")).1.searchView.active = true :=
  ⟨Reachable.step (Msg.key "/") (Reachable.step (Msg.key "i")
      (Reachable.step (Msg.runsLoaded [⟨7, 1, 1, RunStatus.completed⟩] 1 none)
        Reachable.init)),
   by decide, by decide⟩

/-- Claim C7 (amended): the input-capturing overlays — confirmation
dialog, filter form and search — are mutually exclusive in every
reachable state; pressing the filter-form key while the search overlay
is active does not open the filter form: the key is consumed by the
search overlay, which remains the sole active input-capturing overlay.
(The fullscreen log/info overlays are not mutually exclusive with them;
see the counterexample.) -/
theorem C7_overlay_exclusivity :
    (∀ s : AppState, Reachable s → inputOverlaysExclusive s) ∧
    (∀ s : AppState, s.searchView.active = true →
      s.confirmDialog.active = false → s.filterOverlay.active = false →
      (update s (Msg.key "S")).1.filterOverlay.active = false ∧
      (update s (Msg.key "S")).1.searchView.active = true) := by
  constructor
  · intro s hr
    induction hr with
    | init => decide
    | step msg hr ih => exact update_overlays_step _ msg ih
  · intro s hsv hc hf
    unfold update
    rw [if_neg (by simp [hc]), if_neg (by simp [hf]), if_pos hsv]
    unfold searchRoute
    dsimp only
    rw [if_neg (by simp)]
    constructor
    · exact hf
    · show (SearchView.updateKey s.searchView "S").active = true
      unfold SearchView.updateKey
      by_cases hm : s.searchView.inputMode
      · simp [hm, hsv]
      · simp [hm, hsv]

theorem C7_overlay_exclusivity_witness :
    inputOverlaysExclusive initApp ∧
    ((update { initApp with searchView := { SearchView.new with active := true } }
        (Msg.key "S")).1.filterOverlay.active = false ∧
     (update { initApp with searchView := { SearchView.new with active := true } }
        (Msg.key "S")).1.searchView.active = true) :=
  ⟨C7_overlay_exclusivity.1 initApp Reachable.init,
   C7_overlay_exclusivity.2 { initApp with
      searchView := { SearchView.new with active := true } } rfl rfl rfl⟩
